import Mathlib

/-!
# issue696: paginated enumeration, authentication and subscription selection

A shallow embedding of `program.go`.

* Go pointers (`*[]T`, `*string`) are `Option`s; dereferencing `nil` is a panic.
* The Azure clients are collaborators: `List` and `ListNextResults` are
  parameters, an error value is the text it prints.
* A producer goroutine is modelled by the sequence of actions it performs on
  its two channels and on the client.  The `for` loop has no bound in the
  source, so the loop takes a number of iterations it may run; a producer
  that has not left the loop within that number is still `running`.
* The consumer of a producer receives every item sent, as the two consumers in
  the program do, so a send on the unbuffered `results` always completes; the
  single send on `errs` goes into its buffer of one.
-/

namespace Issue696

/-- Go `error` values, identified with the text that `Error()` gives. -/
abbrev Error := String

/-- The SDK's `TenantListResult` and `ListResult`: `Value *[]α`, `NextLink *string`. -/
structure Page (α : Type) where
  Value : Option (List α)
  NextLink : Option String
deriving DecidableEq, Repr

/-- The zero value of a list result, what `var chunk ListResult` holds. -/
def Page.zero {α : Type} : Page α := ⟨none, none⟩

/-- The two requests of a listing client (`TenantsClient`, `GroupClient`). -/
structure Client (α : Type) where
  List : Except Error (Page α)
  ListNextResults : Page α → Except Error (Page α)

/-- What the producer goroutine does, in program order. -/
inductive Event (α : Type) where
  | callList
  | callListNextResults (lastResults : Page α)
  | sendResult (x : α)
  | sendErr (err : Error)
  | rebind
  | nilDereference
  | closeErrs
  | closeResults
deriving DecidableEq, Repr

/-- Where the goroutine stands: still in the loop, returned, or crashed. -/
inductive Status where
  | running
  | returned
  | panicked
deriving DecidableEq, Repr

/-- The actions performed so far and where the goroutine stands. -/
structure Run (α : Type) where
  events : List (Event α)
  status : Status
deriving DecidableEq, Repr

/-- The value of the slot `fetchTenants`: `tenantClient.List`, or the closure
over the goroutine's variable `tenantChunk`. -/
inductive TenantFetcher where
  | List
  | closure
deriving DecidableEq, Repr

/-- The goroutine's variables in `getTenants` across iterations. -/
structure TenantsState (α : Type) where
  fetchTenants : TenantFetcher
  fetchTenantUpdater : Bool
  tenantChunk : Page α
deriving DecidableEq, Repr

/-- The `for` loop of `getTenants`, at most `fuel` iterations of it.  The
closure reads `tenantChunk`, declared before the loop, so it asks for the page
after the one fetched last. -/
def getTenantsLoop {α : Type} (tenantClient : Client α) :
    Nat → TenantsState α → Run α
  | 0, _ => ⟨[], .running⟩
  | fuel + 1, s =>
    let call : Event α := match s.fetchTenants with
      | .List => .callList
      | .closure => .callListNextResults s.tenantChunk
    let fetched := match s.fetchTenants with
      | .List => tenantClient.List
      | .closure => tenantClient.ListNextResults s.tenantChunk
    match fetched with
    | .error err => ⟨[call, .sendErr err], .returned⟩
    | .ok tenantChunk =>
      match tenantChunk.Value with
      | none => ⟨[call, .nilDereference], .panicked⟩
      | some value =>
        let sends := value.map Event.sendResult
        match tenantChunk.NextLink with
        | none => ⟨call :: sends, .returned⟩
        | some _ =>
          if s.fetchTenantUpdater then
            let rest := getTenantsLoop tenantClient fuel
              { s with tenantChunk := tenantChunk }
            ⟨call :: sends ++ rest.events, rest.status⟩
          else
            let rest := getTenantsLoop tenantClient fuel
              ⟨.closure, true, tenantChunk⟩
            ⟨call :: sends ++ Event.rebind :: rest.events, rest.status⟩

/-- The deferred calls, run when the goroutine leaves its function: first
`close(errs)` (deferred last), then `close(results)`. -/
def runDeferred {α : Type} (r : Run α) : Run α :=
  match r.status with
  | .running => r
  | st => ⟨r.events ++ [.closeErrs, .closeResults], st⟩

/-- The goroutine of `getTenants`. -/
def getTenants {α : Type} (tenantClient : Client α) (fuel : Nat) : Run α :=
  runDeferred (getTenantsLoop tenantClient fuel ⟨.List, false, Page.zero⟩)

/-- The value of the slot `fetchSubscriptions`: `client.List`, or the closure
made inside `Once.Do`.  `subscriptionChunk` is declared inside the loop body,
so every iteration has a variable of its own and the closure keeps the one of
the iteration that made it; no later iteration writes to that variable. -/
inductive SubscriptionFetcher (α : Type) where
  | List
  | closure (subscriptionChunk : Page α)
deriving DecidableEq, Repr

/-- The goroutine's variables in `getSubscriptions` across iterations. -/
structure SubscriptionsState (α : Type) where
  fetchSubscriptions : SubscriptionFetcher α
  fetchSubscriptionsUpdater : Bool
deriving DecidableEq, Repr

/-- The `for` loop of `getSubscriptions`, at most `fuel` iterations of it. -/
def getSubscriptionsLoop {α : Type} (client : Client α) :
    Nat → SubscriptionsState α → Run α
  | 0, _ => ⟨[], .running⟩
  | fuel + 1, s =>
    let call : Event α := match s.fetchSubscriptions with
      | .List => .callList
      | .closure captured => .callListNextResults captured
    let fetched := match s.fetchSubscriptions with
      | .List => client.List
      | .closure captured => client.ListNextResults captured
    match fetched with
    | .error err => ⟨[call, .sendErr err], .returned⟩
    | .ok subscriptionChunk =>
      match subscriptionChunk.Value with
      | none => ⟨[call, .nilDereference], .panicked⟩
      | some value =>
        let sends := value.map Event.sendResult
        match subscriptionChunk.NextLink with
        | none => ⟨call :: sends, .returned⟩
        | some _ =>
          if s.fetchSubscriptionsUpdater then
            let rest := getSubscriptionsLoop client fuel s
            ⟨call :: sends ++ rest.events, rest.status⟩
          else
            let rest := getSubscriptionsLoop client fuel
              ⟨.closure subscriptionChunk, true⟩
            ⟨call :: sends ++ Event.rebind :: rest.events, rest.status⟩

/-- The goroutine of `getSubscriptions`. -/
def getSubscriptions {α : Type} (client : Client α) (fuel : Nat) : Run α :=
  runDeferred (getSubscriptionsLoop client fuel ⟨.List, false⟩)

/-! ## What a consumer sees of a producer -/

/-- The items sent on `results`, in order. -/
def itemsSent {α : Type} : List (Event α) → List α
  | [] => []
  | .sendResult x :: es => x :: itemsSent es
  | _ :: es => itemsSent es

/-- The values sent on `errs`, in order. -/
def errsSent {α : Type} : List (Event α) → List Error
  | [] => []
  | .sendErr e :: es => e :: errsSent es
  | _ :: es => errsSent es

/-- The number of page requests made. -/
def fetchCount {α : Type} : List (Event α) → Nat
  | [] => 0
  | .callList :: es => fetchCount es + 1
  | .callListNextResults _ :: es => fetchCount es + 1
  | _ :: es => fetchCount es

/-- The number of assignments to the fetch slot. -/
def rebindCount {α : Type} : List (Event α) → Nat
  | [] => 0
  | .rebind :: es => rebindCount es + 1
  | _ :: es => rebindCount es

/-- The errors the client answered to the requests made. -/
def fetchFailures {α : Type} (c : Client α) : List (Event α) → List Error
  | [] => []
  | .callList :: es =>
    match c.List with
    | .error e => e :: fetchFailures c es
    | .ok _ => fetchFailures c es
  | .callListNextResults p :: es =>
    match c.ListNextResults p with
    | .error e => e :: fetchFailures c es
    | .ok _ => fetchFailures c es
  | _ :: es => fetchFailures c es

/-- Whether `close(errs)` has been executed. -/
def errsClosed {α : Type} : List (Event α) → Bool
  | [] => false
  | .closeErrs :: _ => true
  | _ :: es => errsClosed es

/-- Whether `close(results)` has been executed. -/
def resultsClosed {α : Type} : List (Event α) → Bool
  | [] => false
  | .closeResults :: _ => true
  | _ :: es => resultsClosed es

/-- What `<-errs` gives once the producer has performed `es`: the buffered
value if one was sent, `nil` (`some none`) when the channel is closed and
empty, and `none` when the receive has to wait. -/
def recvErrs {α : Type} (es : List (Event α)) : Option (Option Error) :=
  match errsSent es with
  | e :: _ => some (some e)
  | [] => if errsClosed es then some none else none

/-- The items of a page, `*chunk.Value`, empty for a page without a list. -/
def Page.items {α : Type} (p : Page α) : List α :=
  p.Value.getD []

/-! ## Page sequences served by a client -/

/-- Starting from the answer `r` to the first request, the client serves
exactly the pages `ps`: each page but the last has a `NextLink` and
`ListNextResults` of it answers the next one, and the last has no `NextLink`. -/
def Serves {α : Type} (c : Client α) : Except Error (Page α) → List (Page α) → Prop
  | _, [] => False
  | r, [p] => r = .ok p ∧ p.NextLink = none
  | r, p :: q :: rest =>
    r = .ok p ∧ p.NextLink ≠ none ∧ Serves c (c.ListNextResults p) (q :: rest)

/-- Starting from the answer `r` to the first request, the client serves the
pages `ps`, each with a `NextLink`, and answers the request after them with
the error `e`. -/
def ServesThenFails {α : Type} (c : Client α) (e : Error) :
    Except Error (Page α) → List (Page α) → Prop
  | r, [] => r = .error e
  | r, p :: rest =>
    r = .ok p ∧ p.NextLink ≠ none ∧ ServesThenFails c e (c.ListNextResults p) rest

/-! ## Authentication and the main program -/

/-- The SDK's `subscriptions.TenantIDDescription`. -/
structure TenantIDDescription where
  ID : Option String
  TenantID : Option String
deriving DecidableEq, Repr

/-- The SDK's `subscriptions.Subscription`, the fields the program reads. -/
structure Subscription where
  SubscriptionID : Option String
  DisplayName : Option String
deriving DecidableEq, Repr

/-- The SDK's `keyvault.Resource`, the field the program reads. -/
structure Resource where
  Name : Option String
deriving DecidableEq, Repr

/-- The SDK's `keyvault.ResourceListResult`; its `NextLink` is never read. -/
structure ResourceListResult where
  Value : Option (List Resource)
deriving DecidableEq, Repr

/-- A `uuid.UUID`, with the text its `String()` gives. -/
structure UUID where
  canonical : String
deriving DecidableEq, Repr

/-- An `adal.OAuthConfig`. -/
structure OAuthConfig where
  AuthorityEndpoint : String
deriving DecidableEq, Repr

/-- An `adal.DeviceCode`. -/
structure DeviceCode where
  Message : Option String
deriving DecidableEq, Repr

/-- An `adal.Token`. -/
structure Token where
  AccessToken : String
deriving DecidableEq, Repr

/-- An `adal.ServicePrincipalToken`. -/
structure ServicePrincipalToken where
  Token : Token
deriving DecidableEq, Repr

/-- The package variable `environment` (`azure.PublicCloud`), the fields read. -/
structure Environment where
  ActiveDirectoryEndpoint : String
  ServiceManagementEndpoint : String
  ResourceManagerEndpoint : String
deriving DecidableEq, Repr

/-- The collaborators of the program: the libraries it calls, the services
behind them and the operator.  A call that returns a pointer and an error
gives either the error (with a nil pointer) or the value; `uuid.FromString`
returns a value and an error. -/
structure World where
  environment : Environment
  uuidFromString : String → UUID × Option Error
  NewOAuthConfig : String → String → Except Error OAuthConfig
  InitiateDeviceAuth : OAuthConfig → String → String → Except Error DeviceCode
  Println : String → Option Error
  WaitForUserCompletion : DeviceCode → Except Error Token
  NewServicePrincipalTokenFromManualToken :
    OAuthConfig → String → String → Token → Except Error ServicePrincipalToken
  tenantsClient : Option Token → Client TenantIDDescription
  groupClient : Option Token → Client Subscription
  Scanf : Option Int
  vaultsList : String → Option Token → String → Int → Except Error ResourceListResult

/-- The calls and the console traffic of the program, in order. -/
inductive Effect where
  | stdout (text : String)
  | stderr (text : String)
  | stdin
  | NewOAuthConfig (endpoint tenantID : String)
  | InitiateDeviceAuth (clientID resource : String)
  | WaitForUserCompletion
  | getTenants
  | uuidFromString (input : String)
  | NewServicePrincipalTokenFromManualToken (clientID resource : String)
  | getSubscriptions
  | vaultsList (subscriptionID filter : String) (top : Int)
deriving DecidableEq, Repr

/-- How a function call ends: it returns, or a nil dereference or an index
out of range crashes the process. -/
inductive Outcome (ρ : Type) where
  | returned (value : ρ)
  | panicked
deriving DecidableEq, Repr

/-- The consumer of an enumerator, `for x := range results` followed by
`<-errs`: the items received and the error read.  `none` while the producer
is still in its loop. -/
def drain {α : Type} (run : Run α) : Option (Outcome (List α × Option Error)) :=
  match run.status with
  | .running => none
  | .panicked => some .panicked
  | .returned =>
    match recvErrs run.events with
    | none => none
    | some err => some (.returned (itemsSent run.events, err))

/-- The text of the error of the tenant-count gate. -/
def tenantCountError : Error :=
  "zero or multiple tenants associated with this account"

/-- The loop body `tenantCache = append(tenantCache, *tenant.TenantID)` over the
received tenants; `none` when a `TenantID` is nil. -/
def tenantCacheOf : List TenantIDDescription → Option (List String)
  | [] => some []
  | tenant :: rest =>
    match tenant.TenantID, tenantCacheOf rest with
    | some tenantID, some cache => some (tenantID :: cache)
    | _, _ => none

/-- The function `authenticate`: the pair `(token, err)` it returns and the
calls it makes.  `none` while the tenant producer is still in its loop. -/
def authenticate (w : World) (clientID : UUID) (fuel : Nat) :
    Option (Outcome (Option Token × Option Error) × List Effect) :=
  let log1 := [Effect.NewOAuthConfig w.environment.ActiveDirectoryEndpoint "common"]
  match w.NewOAuthConfig w.environment.ActiveDirectoryEndpoint "common" with
  | .error err => some (.returned (none, some err), log1)
  | .ok config =>
    let log2 := log1 ++
      [Effect.InitiateDeviceAuth clientID.canonical w.environment.ServiceManagementEndpoint]
    match w.InitiateDeviceAuth config clientID.canonical
        w.environment.ServiceManagementEndpoint with
    | .error err => some (.returned (none, some err), log2)
    | .ok deviceCode =>
      match deviceCode.Message with
      | none => some (.panicked, log2)
      | some message =>
        let log3 := log2 ++ [Effect.stdout (message ++ "\n")]
        match w.Println message with
        | some err => some (.returned (none, some err), log3)
        | none =>
          let log4 := log3 ++ [Effect.WaitForUserCompletion]
          match w.WaitForUserCompletion deviceCode with
          | .error err => some (.returned (none, some err), log4)
          | .ok token =>
            let log5 := log4 ++ [Effect.getTenants]
            match drain (getTenants (w.tenantsClient (some token)) fuel) with
            | none => none
            | some .panicked => some (.panicked, log5)
            | some (.returned (tenants, tenantErr)) =>
              match tenantCacheOf tenants with
              | none => some (.panicked, log5)
              | some tenantCache =>
                match tenantErr with
                | some err => some (.returned (some token, some err), log5)
                | none =>
                  match tenantCache with
                  | [tenantID] =>
                    let userTenantID := (w.uuidFromString tenantID).1
                    let log6 := log5 ++ [Effect.uuidFromString tenantID,
                      Effect.NewOAuthConfig w.environment.ActiveDirectoryEndpoint
                        userTenantID.canonical]
                    match w.NewOAuthConfig w.environment.ActiveDirectoryEndpoint
                        userTenantID.canonical with
                    | .error _ => some (.panicked, log6)
                    | .ok tenantConfig =>
                      let log7 := log6 ++ [Effect.NewServicePrincipalTokenFromManualToken
                        clientID.canonical w.environment.ResourceManagerEndpoint]
                      match w.NewServicePrincipalTokenFromManualToken tenantConfig
                          clientID.canonical w.environment.ResourceManagerEndpoint token with
                      | .error err => some (.returned (none, some err), log7)
                      | .ok spt => some (.returned (some spt.Token, none), log7)
                  | _ => some (.returned (some token, some tenantCountError), log5)

/-- The verb `%2d` of `fmt`: decimal, padded with blanks on the left to width 2. -/
def fmt2d (i : Nat) : String :=
  if (toString i).length < 2 then " " ++ toString i else toString i

/-- The text of `fmt.Printf("\t%2d) %s\n", i, *sub.DisplayName)`. -/
def selectionLine (i : Nat) (displayName : String) : String :=
  "\t" ++ fmt2d i ++ ") " ++ displayName ++ "\n"

/-- The loop `for i, sub := range subscriptionCache` of `main`, from index `i`
on: the lines printed, and whether the loop ran to its end (`false` when a
`DisplayName` is nil). -/
def printSubscriptions : Nat → List Subscription → List Effect × Bool
  | _, [] => ([], true)
  | i, sub :: rest =>
    match sub.DisplayName with
    | none => ([], false)
    | some displayName =>
      let tail := printSubscriptions (i + 1) rest
      (Effect.stdout (selectionLine i displayName) :: tail.1, tail.2)

/-- The loop `for _, r := range *results.Value` of `main`. -/
def printResources : List Resource → List Effect × Bool
  | [] => ([], true)
  | r :: rest =>
    match r.Name with
    | none => ([], false)
    | some name =>
      let tail := printResources rest
      (Effect.stdout ("\t " ++ name ++ "\n") :: tail.1, tail.2)

/-- Lines 72 to 85 of `main`: the vault listing for the chosen subscription
and the printing of its first page. -/
def main.listVaults (w : World) (token : Option Token) (userSubscription : String) :
    Outcome Unit × List Effect :=
  let log := [Effect.vaultsList userSubscription "" 30]
  match w.vaultsList userSubscription token "" 30 with
  | .error err => (.returned (), log ++ [Effect.stderr (err ++ "\n")])
  | .ok results =>
    let log := log ++ [Effect.stdout "Resources Found:\n"]
    match results.Value with
    | none => (.panicked, log)
    | some value =>
      let printed := printResources value
      (if printed.2 then .returned () else .panicked, log ++ printed.1)

/-- The expression `subscriptionCache[selected]`; `none` when the index is out
of range. -/
def index {α : Type} (xs : List α) (selected : Int) : Option α :=
  if selected < 0 then none else xs[selected.toNat]?

/-- Lines 55 to 86 of `main`: the choice of the subscription out of the drained
`subscriptionCache`, then the vault listing. -/
def main.selection (w : World) (token : Option Token)
    (subscriptionCache : List Subscription) : Outcome Unit × List Effect :=
  match subscriptionCache with
  | [] =>
    (.returned (), [Effect.stderr "No subscriptions found for this user in this tenant.\n"])
  | [only] =>
    match only.SubscriptionID with
    | none => (.panicked, [])
    | some userSubscription => main.listVaults w token userSubscription
  | _ =>
    let printed := printSubscriptions 0 subscriptionCache
    let log := Effect.stdout "Please select a subscription:\n" :: printed.1
    if printed.2 then
      let log := log ++ [Effect.stdout "Selection: ", Effect.stdin]
      let selected : Int := w.Scanf.getD 0
      match index subscriptionCache selected with
      | none => (.panicked, log)
      | some sub =>
        match sub.SubscriptionID with
        | none => (.panicked, log)
        | some userSubscription =>
          let listed := main.listVaults w token userSubscription
          (listed.1, log ++ listed.2)
    else (.panicked, log)

/-- The function `main`.  `none` while a producer is still in its loop. -/
def main (w : World) (fuel : Nat) : Option (Outcome Unit × List Effect) :=
  let clientID := w.uuidFromString "04b07795-8ddb-461a-bbee-02f9e1bf7b46"
  let log := [Effect.uuidFromString "04b07795-8ddb-461a-bbee-02f9e1bf7b46"]
  match clientID.2 with
  | some err => some (.returned (), log ++ [Effect.stderr err])
  | none =>
    match authenticate w clientID.1 fuel with
    | none => none
    | some (.panicked, calls) => some (.panicked, log ++ calls)
    | some (.returned (_, some err), calls) =>
      some (.returned (), log ++ calls ++ [Effect.stderr (err ++ "\n")])
    | some (.returned (token, none), calls) =>
      let log := log ++ calls ++ [Effect.getSubscriptions]
      match drain (getSubscriptions (w.groupClient token) fuel) with
      | none => none
      | some .panicked => some (.panicked, log)
      | some (.returned (_, some err)) =>
        some (.returned (), log ++ [Effect.stderr (err ++ "\n")])
      | some (.returned (subscriptionCache, none)) =>
        let rest := main.selection w token subscriptionCache
        some (rest.1, log ++ rest.2)

/-! ## The next request of a producer -/

/-- The request `fetchTenants()` makes in state `s`. -/
def TenantsState.call {α : Type} (s : TenantsState α) : Event α :=
  match s.fetchTenants with
  | .List => .callList
  | .closure => .callListNextResults s.tenantChunk

/-- The answer `fetchTenants()` gets in state `s`. -/
def TenantsState.response {α : Type} (c : Client α) (s : TenantsState α) :
    Except Error (Page α) :=
  match s.fetchTenants with
  | .List => c.List
  | .closure => c.ListNextResults s.tenantChunk

/-- The request `fetchSubscriptions()` makes in state `s`. -/
def SubscriptionsState.call {α : Type} (s : SubscriptionsState α) : Event α :=
  match s.fetchSubscriptions with
  | .List => .callList
  | .closure captured => .callListNextResults captured

/-- The answer `fetchSubscriptions()` gets in state `s`. -/
def SubscriptionsState.response {α : Type} (c : Client α) (s : SubscriptionsState α) :
    Except Error (Page α) :=
  match s.fetchSubscriptions with
  | .List => c.List
  | .closure captured => c.ListNextResults captured

/-- What `Once.Do` does to the slot: the assignment, unless it was done before. -/
def onceEvents {α : Type} (done : Bool) : List (Event α) :=
  if done then [] else [.rebind]

/-- The state of `getTenants` after an iteration that fetched `p` and goes on. -/
def TenantsState.next {α : Type} (s : TenantsState α) (p : Page α) : TenantsState α :=
  if s.fetchTenantUpdater then { s with tenantChunk := p } else ⟨.closure, true, p⟩

/-- The state of `getSubscriptions` after an iteration that fetched `p` and goes on. -/
def SubscriptionsState.next {α : Type} (s : SubscriptionsState α) (p : Page α) :
    SubscriptionsState α :=
  if s.fetchSubscriptionsUpdater then s else ⟨.closure p, true⟩

/-- The shape of a producer's actions inside its loop: no channel is closed,
the values sent on `errs` are the errors the client answered, and an error is
sent at most once, as the last action of a producer that returns. -/
def LoopShape {α : Type} (c : Client α) (r : Run α) : Prop :=
  errsClosed r.events = false ∧ resultsClosed r.events = false ∧
  errsSent r.events = fetchFailures c r.events ∧
  ∃ body, errsSent body = [] ∧
    (r.events = body ∨ ∃ e, r.status = .returned ∧ r.events = body ++ [.sendErr e])

/-! ## Concrete inputs -/

/-- A first page of subscriptions, with a continuation. -/
def subscriptionPage1 : Page Subscription :=
  ⟨some [⟨some "id-1", some "S1"⟩], some "c1"⟩

/-- A second page of subscriptions, with a continuation. -/
def subscriptionPage2 : Page Subscription :=
  ⟨some [⟨some "id-2", some "S2"⟩], some "c2"⟩

/-- A last page of subscriptions. -/
def subscriptionPage3 : Page Subscription :=
  ⟨some [⟨some "id-3", some "S3"⟩], none⟩

/-- A subscription service with three pages; the page after a given one is
found from the `NextLink` of the given one. -/
def threeSubscriptionPages : Client Subscription where
  List := .ok subscriptionPage1
  ListNextResults := fun lastResults =>
    if lastResults.NextLink = some "c1" then .ok subscriptionPage2
    else if lastResults.NextLink = some "c2" then .ok subscriptionPage3
    else .error "no next page"

/-- A subscription service that serves two pages and fails on the request for
the third. -/
def failingThirdSubscriptionPage : Client Subscription where
  List := .ok subscriptionPage1
  ListNextResults := fun lastResults =>
    if lastResults.NextLink = some "c1" then .ok subscriptionPage2
    else .error "service unavailable"

/-- A first page of tenants, with a continuation. -/
def tenantPage1 : Page TenantIDDescription :=
  ⟨some [⟨some "/tenants/t1", some "t1"⟩], some "c1"⟩

/-- A second page of tenants, with a continuation. -/
def tenantPage2 : Page TenantIDDescription :=
  ⟨some [⟨some "/tenants/t2", some "t2"⟩], some "c2"⟩

/-- A last page of tenants. -/
def tenantPage3 : Page TenantIDDescription :=
  ⟨some [⟨some "/tenants/t3", some "t3"⟩], none⟩

/-- A tenant service with three pages. -/
def threeTenantPages : Client TenantIDDescription where
  List := .ok tenantPage1
  ListNextResults := fun lastResults =>
    if lastResults.NextLink = some "c1" then .ok tenantPage2
    else if lastResults.NextLink = some "c2" then .ok tenantPage3
    else .error "no next page"

/-- A tenant service that serves two pages and fails on the request for the
third. -/
def failingThirdTenantPage : Client TenantIDDescription where
  List := .ok tenantPage1
  ListNextResults := fun lastResults =>
    if lastResults.NextLink = some "c1" then .ok tenantPage2
    else .error "service unavailable"

/-- A subscription service with two pages. -/
def twoSubscriptionPages : Client Subscription where
  List := .ok subscriptionPage1
  ListNextResults := fun lastResults =>
    if lastResults.NextLink = some "c1" then .ok subscriptionPage3
    else .error "no next page"

/-- A tenant service with a single page holding the tenants given. -/
def tenantsInOnePage (tenants : List TenantIDDescription) : Client TenantIDDescription where
  List := .ok ⟨some tenants, none⟩
  ListNextResults := fun _ => .error "no next page"

/-- A stand-in for `uuid.FromString`: a text of 36 characters parses; for any
other the zero UUID comes back with an error. -/
def exampleFromString (input : String) : UUID × Option Error :=
  if input.length = 36 then (⟨input⟩, none)
  else (⟨"00000000-0000-0000-0000-000000000000"⟩, some "uuid: incorrect UUID length")

/-- A world in which every collaborator succeeds, around the listing services
and the operator's input given. -/
def exampleWorld (tenants : Client TenantIDDescription) (subscriptions : Client Subscription)
    (scanf : Option Int) : World where
  environment := ⟨"https://login.microsoftonline.com/",
    "https://management.core.windows.net/", "https://management.azure.com/"⟩
  uuidFromString := exampleFromString
  NewOAuthConfig := fun endpoint tenantID => .ok ⟨endpoint ++ tenantID⟩
  InitiateDeviceAuth := fun _ _ _ => .ok ⟨some "To sign in, enter the code ABCD."⟩
  Println := fun _ => none
  WaitForUserCompletion := fun _ => .ok ⟨"user-token"⟩
  NewServicePrincipalTokenFromManualToken := fun _ _ _ token => .ok ⟨token⟩
  tenantsClient := fun _ => tenants
  groupClient := fun _ => subscriptions
  Scanf := scanf
  vaultsList := fun _ _ _ _ => .ok ⟨some [⟨some "V1"⟩, ⟨some "V2"⟩]⟩

/-- The client identifier `main` passes to `authenticate`. -/
def exampleClientID : UUID := ⟨"04b07795-8ddb-461a-bbee-02f9e1bf7b46"⟩

/-- A world whose only tenant has an identifier that is not a UUID. -/
def invalidTenantWorld : World :=
  exampleWorld (tenantsInOnePage [⟨none, some "not-a-uuid"⟩]) twoSubscriptionPages none

/-- A world with one tenant in which the OAuth configuration can be made for
the directory `common` only. -/
def noTenantConfigWorld : World :=
  { exampleWorld (tenantsInOnePage [⟨none, some "72f988bf-86f1-41af-91ab-2d7cd011db47"⟩])
      twoSubscriptionPages none with
    NewOAuthConfig := fun endpoint tenantID =>
      if tenantID = "common" then .ok ⟨endpoint ++ tenantID⟩
      else .error "parse: invalid tenant endpoint" }

/-- A world with two tenants. -/
def twoTenantsWorld : World :=
  exampleWorld (tenantsInOnePage [⟨none, some "72f988bf-86f1-41af-91ab-2d7cd011db47"⟩,
    ⟨none, some "0f1ab6a7-5f42-4b0e-a3a5-3b4f2c0c1d11"⟩]) twoSubscriptionPages none

/-! ## Observers over concatenated traces -/

section Observers

variable {α : Type}

theorem itemsSent_append (a b : List (Event α)) :
    itemsSent (a ++ b) = itemsSent a ++ itemsSent b := by
  induction a with
  | nil => rfl
  | cons e a ih => cases e <;> simp [itemsSent, ih]

theorem errsSent_append (a b : List (Event α)) :
    errsSent (a ++ b) = errsSent a ++ errsSent b := by
  induction a with
  | nil => rfl
  | cons e a ih => cases e <;> simp [errsSent, ih]

theorem fetchCount_append (a b : List (Event α)) :
    fetchCount (a ++ b) = fetchCount a + fetchCount b := by
  induction a with
  | nil => simp [fetchCount]
  | cons e a ih =>
    cases e <;> simp [fetchCount, ih]
    all_goals omega

theorem rebindCount_append (a b : List (Event α)) :
    rebindCount (a ++ b) = rebindCount a + rebindCount b := by
  induction a with
  | nil => simp [rebindCount]
  | cons e a ih =>
    cases e <;> simp [rebindCount, ih]
    all_goals omega

theorem fetchFailures_append (c : Client α) (a b : List (Event α)) :
    fetchFailures c (a ++ b) = fetchFailures c a ++ fetchFailures c b := by
  induction a with
  | nil => rfl
  | cons e a ih =>
    cases e with
    | callList => cases h : c.List <;> simp [fetchFailures, h, ih]
    | callListNextResults p =>
      cases h : c.ListNextResults p <;> simp [fetchFailures, h, ih]
    | _ => simp [fetchFailures, ih]

theorem errsClosed_append (a b : List (Event α)) :
    errsClosed (a ++ b) = (errsClosed a || errsClosed b) := by
  induction a with
  | nil => simp [errsClosed]
  | cons e a ih => cases e <;> simp [errsClosed, ih]

theorem resultsClosed_append (a b : List (Event α)) :
    resultsClosed (a ++ b) = (resultsClosed a || resultsClosed b) := by
  induction a with
  | nil => simp [resultsClosed]
  | cons e a ih => cases e <;> simp [resultsClosed, ih]

theorem itemsSent_sends (v : List α) : itemsSent (v.map Event.sendResult) = v := by
  induction v with
  | nil => rfl
  | cons x v ih => simp [itemsSent, ih]

theorem errsSent_sends (v : List α) : errsSent (v.map Event.sendResult) = [] := by
  induction v with
  | nil => rfl
  | cons x v ih => simp [errsSent, ih]

theorem fetchCount_sends (v : List α) : fetchCount (v.map Event.sendResult) = 0 := by
  induction v with
  | nil => rfl
  | cons x v ih => simpa [fetchCount] using ih

theorem rebindCount_sends (v : List α) : rebindCount (v.map Event.sendResult) = 0 := by
  induction v with
  | nil => rfl
  | cons x v ih => simp [rebindCount, ih]

theorem fetchFailures_sends (c : Client α) (v : List α) :
    fetchFailures c (v.map Event.sendResult) = [] := by
  induction v with
  | nil => rfl
  | cons x v ih => simp [fetchFailures, ih]

theorem errsClosed_sends (v : List α) : errsClosed (v.map Event.sendResult) = false := by
  induction v with
  | nil => rfl
  | cons x v ih => simp [errsClosed, ih]

theorem resultsClosed_sends (v : List α) :
    resultsClosed (v.map Event.sendResult) = false := by
  induction v with
  | nil => rfl
  | cons x v ih => simp [resultsClosed, ih]

end Observers

/-! ## The loop of `getTenants` -/

section Tenants

variable {α : Type}

theorem getTenantsLoop_succ (c : Client α) (fuel : Nat) (s : TenantsState α) :
    getTenantsLoop c (fuel + 1) s =
      match s.response c with
      | .error err => ⟨[s.call, .sendErr err], .returned⟩
      | .ok tenantChunk =>
        match tenantChunk.Value with
        | none => ⟨[s.call, .nilDereference], .panicked⟩
        | some value =>
          match tenantChunk.NextLink with
          | none => ⟨s.call :: value.map Event.sendResult, .returned⟩
          | some _ =>
            ⟨s.call :: value.map Event.sendResult ++ onceEvents s.fetchTenantUpdater ++
                (getTenantsLoop c fuel (s.next tenantChunk)).events,
              (getTenantsLoop c fuel (s.next tenantChunk)).status⟩ := by
  obtain ⟨f, o, t⟩ := s
  cases f <;> cases o <;>
    simp only [getTenantsLoop, TenantsState.call, TenantsState.response, TenantsState.next,
      onceEvents] <;>
    (split <;> try rfl) <;> (split <;> try rfl) <;> (split <;> try rfl) <;> simp

theorem getTenantsLoop_error (c : Client α) (fuel : Nat) (s : TenantsState α) (e : Error)
    (hr : s.response c = .error e) :
    getTenantsLoop c (fuel + 1) s = ⟨[s.call, .sendErr e], .returned⟩ := by
  rw [getTenantsLoop_succ, hr]

theorem getTenantsLoop_nil (c : Client α) (fuel : Nat) (s : TenantsState α) (p : Page α)
    (hr : s.response c = .ok p) (hv : p.Value = none) :
    getTenantsLoop c (fuel + 1) s = ⟨[s.call, .nilDereference], .panicked⟩ := by
  rw [getTenantsLoop_succ, hr]
  simp only [hv]

theorem getTenantsLoop_last (c : Client α) (fuel : Nat) (s : TenantsState α) (p : Page α)
    (v : List α) (hr : s.response c = .ok p) (hv : p.Value = some v)
    (hn : p.NextLink = none) :
    getTenantsLoop c (fuel + 1) s = ⟨s.call :: v.map Event.sendResult, .returned⟩ := by
  rw [getTenantsLoop_succ, hr]
  simp only [hv, hn]

theorem getTenantsLoop_more (c : Client α) (fuel : Nat) (s : TenantsState α) (p : Page α)
    (v : List α) (hr : s.response c = .ok p) (hv : p.Value = some v)
    (hn : p.NextLink ≠ none) :
    getTenantsLoop c (fuel + 1) s =
      ⟨s.call :: v.map Event.sendResult ++ onceEvents s.fetchTenantUpdater ++
          (getTenantsLoop c fuel (s.next p)).events,
        (getTenantsLoop c fuel (s.next p)).status⟩ := by
  rw [getTenantsLoop_succ, hr]
  cases hl : p.NextLink with
  | none => exact absurd hl hn
  | some l => simp only [hv, hl]

theorem fetchCount_tenants_call (s : TenantsState α) (es : List (Event α)) :
    fetchCount (s.call :: es) = fetchCount es + 1 := by
  obtain ⟨f, o, t⟩ := s
  cases f <;> rfl

theorem itemsSent_tenants_call (s : TenantsState α) (es : List (Event α)) :
    itemsSent (s.call :: es) = itemsSent es := by
  obtain ⟨f, o, t⟩ := s
  cases f <;> rfl

theorem errsSent_tenants_call (s : TenantsState α) (es : List (Event α)) :
    errsSent (s.call :: es) = errsSent es := by
  obtain ⟨f, o, t⟩ := s
  cases f <;> rfl

theorem rebindCount_tenants_call (s : TenantsState α) (es : List (Event α)) :
    rebindCount (s.call :: es) = rebindCount es := by
  obtain ⟨f, o, t⟩ := s
  cases f <;> rfl

theorem errsClosed_tenants_call (s : TenantsState α) (es : List (Event α)) :
    errsClosed (s.call :: es) = errsClosed es := by
  obtain ⟨f, o, t⟩ := s
  cases f <;> rfl

theorem resultsClosed_tenants_call (s : TenantsState α) (es : List (Event α)) :
    resultsClosed (s.call :: es) = resultsClosed es := by
  obtain ⟨f, o, t⟩ := s
  cases f <;> rfl

theorem fetchFailures_tenants_call (c : Client α) (s : TenantsState α)
    (es : List (Event α)) :
    fetchFailures c (s.call :: es) =
      (match s.response c with
        | .error e => [e]
        | .ok _ => []) ++ fetchFailures c es := by
  obtain ⟨f, o, t⟩ := s
  cases f
  · simp only [TenantsState.call, TenantsState.response, fetchFailures]
    cases c.List <;> rfl
  · simp only [TenantsState.call, TenantsState.response, fetchFailures]
    cases c.ListNextResults t <;> rfl

/-- The state after an iteration that goes on asks for the page after the one
just fetched. -/
theorem tenants_next_response (c : Client α) (s : TenantsState α) (p : Page α)
    (hinv : s.fetchTenantUpdater = true → s.fetchTenants = .closure) :
    (s.next p).response c = c.ListNextResults p := by
  obtain ⟨f, o, t⟩ := s
  cases o
  · rfl
  · have hf : f = .closure := hinv rfl
    subst hf
    rfl

theorem tenants_next_done (s : TenantsState α) (p : Page α) :
    (s.next p).fetchTenantUpdater = true := by
  obtain ⟨f, o, t⟩ := s
  cases o <;> rfl

theorem tenants_next_closure (s : TenantsState α) (p : Page α)
    (hinv : s.fetchTenantUpdater = true → s.fetchTenants = .closure) :
    (s.next p).fetchTenants = .closure := by
  obtain ⟨f, o, t⟩ := s
  cases o
  · rfl
  · exact hinv rfl

theorem onceEvents_quiet (c : Client α) (b : Bool) :
    errsClosed (onceEvents b : List (Event α)) = false ∧
    resultsClosed (onceEvents b : List (Event α)) = false ∧
    errsSent (onceEvents b : List (Event α)) = [] ∧
    fetchFailures c (onceEvents b : List (Event α)) = [] ∧
    itemsSent (onceEvents b : List (Event α)) = [] ∧
    fetchCount (onceEvents b : List (Event α)) = 0 := by
  cases b <;> exact ⟨rfl, rfl, rfl, rfl, rfl, rfl⟩

theorem getTenantsLoop_shape (c : Client α) :
    ∀ (fuel : Nat) (s : TenantsState α), LoopShape c (getTenantsLoop c fuel s) := by
  intro fuel
  induction fuel with
  | zero =>
    intro s
    exact ⟨rfl, rfl, rfl, [], rfl, Or.inl rfl⟩
  | succ fuel ih =>
    intro s
    cases hr : s.response c with
    | error err =>
      rw [getTenantsLoop_error c fuel s err hr]
      refine ⟨?_, ?_, ?_, [s.call], ?_, Or.inr ⟨err, rfl, rfl⟩⟩
      · simp [errsClosed_tenants_call, errsClosed]
      · simp [resultsClosed_tenants_call, resultsClosed]
      · simp [errsSent_tenants_call, fetchFailures_tenants_call, hr, errsSent, fetchFailures]
      · simp [errsSent_tenants_call, errsSent]
    | ok chunk =>
      cases hv : chunk.Value with
      | none =>
        rw [getTenantsLoop_nil c fuel s chunk hr hv]
        refine ⟨?_, ?_, ?_, [s.call, .nilDereference], ?_, Or.inl rfl⟩
        · simp [errsClosed_tenants_call, errsClosed]
        · simp [resultsClosed_tenants_call, resultsClosed]
        · simp [errsSent_tenants_call, fetchFailures_tenants_call, hr, errsSent, fetchFailures]
        · simp [errsSent_tenants_call, errsSent]
      | some value =>
        cases hn : chunk.NextLink with
        | none =>
          rw [getTenantsLoop_last c fuel s chunk value hr hv hn]
          refine ⟨?_, ?_, ?_, s.call :: value.map Event.sendResult, ?_, Or.inl rfl⟩
          · simp [errsClosed_tenants_call, errsClosed_sends]
          · simp [resultsClosed_tenants_call, resultsClosed_sends]
          · simp [errsSent_tenants_call, fetchFailures_tenants_call, hr, errsSent_sends,
              fetchFailures_sends]
          · simp [errsSent_tenants_call, errsSent_sends]
        | some link =>
          rw [getTenantsLoop_more c fuel s chunk value hr hv (by simp [hn])]
          obtain ⟨h1, h2, h3, body, hb, hshape⟩ := ih (s.next chunk)
          obtain ⟨o1, o2, o3, o4, _, _⟩ := onceEvents_quiet c s.fetchTenantUpdater
          refine ⟨?_, ?_, ?_,
            s.call :: value.map Event.sendResult ++ onceEvents s.fetchTenantUpdater ++ body,
            ?_, ?_⟩
          · simp [errsClosed_tenants_call, errsClosed_append, errsClosed_sends, o1, h1]
          · simp [resultsClosed_tenants_call, resultsClosed_append, resultsClosed_sends, o2, h2]
          · simp [errsSent_tenants_call, fetchFailures_tenants_call, hr, errsSent_append,
              fetchFailures_append, errsSent_sends, fetchFailures_sends, o3, o4, h3]
          · simp [errsSent_tenants_call, errsSent_append, errsSent_sends, o3, hb]
          · rcases hshape with h | ⟨e, hs, he⟩
            · exact Or.inl (by simp [h])
            · exact Or.inr ⟨e, hs, by simp [he]⟩

theorem rebindCount_onceEvents (b : Bool) :
    rebindCount (onceEvents b : List (Event α)) = if b then 0 else 1 := by
  cases b <;> rfl

theorem getTenantsLoop_rebind (c : Client α) :
    ∀ (fuel : Nat) (s : TenantsState α),
      rebindCount (getTenantsLoop c fuel s).events ≤ if s.fetchTenantUpdater then 0 else 1 := by
  intro fuel
  induction fuel with
  | zero =>
    intro s
    simp [getTenantsLoop, rebindCount]
  | succ fuel ih =>
    intro s
    cases hr : s.response c with
    | error err =>
      rw [getTenantsLoop_error c fuel s err hr]
      simp [rebindCount_tenants_call, rebindCount]
    | ok chunk =>
      cases hv : chunk.Value with
      | none =>
        rw [getTenantsLoop_nil c fuel s chunk hr hv]
        simp [rebindCount_tenants_call, rebindCount]
      | some value =>
        cases hn : chunk.NextLink with
        | none =>
          rw [getTenantsLoop_last c fuel s chunk value hr hv hn]
          simp [rebindCount_tenants_call, rebindCount_sends]
        | some link =>
          rw [getTenantsLoop_more c fuel s chunk value hr hv (by simp [hn])]
          have h := ih (s.next chunk)
          rw [tenants_next_done] at h
          simp only [List.cons_append, List.append_assoc, rebindCount_tenants_call,
            rebindCount_append, rebindCount_sends, rebindCount_onceEvents]
          simp only [if_true] at h
          omega

theorem getTenantsLoop_serves (c : Client α) :
    ∀ (ps : List (Page α)) (s : TenantsState α) (fuel : Nat),
      Serves c (s.response c) ps → (∀ p ∈ ps, p.Value ≠ none) →
      (s.fetchTenantUpdater = true → s.fetchTenants = .closure) → ps.length ≤ fuel →
      (getTenantsLoop c fuel s).status = .returned ∧
      itemsSent (getTenantsLoop c fuel s).events = ps.flatMap Page.items ∧
      fetchCount (getTenantsLoop c fuel s).events = ps.length ∧
      errsSent (getTenantsLoop c fuel s).events = [] := by
  intro ps
  induction ps with
  | nil =>
    intro s fuel h
    exact absurd h (by simp [Serves])
  | cons p rest ih =>
    intro s fuel h hval hinv hfuel
    obtain ⟨v, hv⟩ : ∃ v, p.Value = some v :=
      Option.ne_none_iff_exists'.mp (hval p (List.mem_cons_self p rest))
    obtain ⟨fuel, rfl⟩ : ∃ f, fuel = f + 1 := ⟨fuel - 1, by simp at hfuel; omega⟩
    cases rest with
    | nil =>
      simp only [Serves] at h
      rw [getTenantsLoop_last c fuel s p v h.1 hv h.2]
      simp [itemsSent_tenants_call, itemsSent_sends, fetchCount_tenants_call, fetchCount_sends,
        errsSent_tenants_call, errsSent_sends, Page.items, hv]
    | cons q rest =>
      simp only [Serves] at h
      obtain ⟨hr, hn, hrest⟩ := h
      rw [getTenantsLoop_more c fuel s p v hr hv hn]
      have hnext : Serves c ((s.next p).response c) (q :: rest) := by
        rw [tenants_next_response c s p hinv]
        exact hrest
      obtain ⟨h1, h2, h3, h4⟩ := ih (s.next p) fuel hnext
        (fun x hx => hval x (List.mem_cons_of_mem p hx))
        (fun _ => tenants_next_closure s p hinv)
        (by simp at hfuel ⊢; omega)
      obtain ⟨_, _, o3, _, o5, o6⟩ := onceEvents_quiet c s.fetchTenantUpdater
      refine ⟨h1, ?_, ?_, ?_⟩
      · simp only [List.cons_append, List.append_assoc, itemsSent_tenants_call,
          itemsSent_append, itemsSent_sends, o5, h2, List.flatMap_cons, Page.items, hv,
          Option.getD_some, List.nil_append]
      · simp only [List.cons_append, List.append_assoc, fetchCount_tenants_call,
          fetchCount_append, fetchCount_sends, o6, h3, List.length_cons]
        omega
      · simp only [List.cons_append, List.append_assoc, errsSent_tenants_call,
          errsSent_append, errsSent_sends, o3, h4, List.append_nil]

theorem getTenantsLoop_servesThenFails (c : Client α) (e : Error) :
    ∀ (ps : List (Page α)) (s : TenantsState α) (fuel : Nat),
      ServesThenFails c e (s.response c) ps → (∀ p ∈ ps, p.Value ≠ none) →
      (s.fetchTenantUpdater = true → s.fetchTenants = .closure) → ps.length + 1 ≤ fuel →
      (getTenantsLoop c fuel s).status = .returned ∧
      ∃ body, (getTenantsLoop c fuel s).events = body ++ [.sendErr e] ∧
        itemsSent body = ps.flatMap Page.items ∧ errsSent body = [] ∧
        fetchCount body = ps.length + 1 := by
  intro ps
  induction ps with
  | nil =>
    intro s fuel h _ _ hfuel
    obtain ⟨fuel, rfl⟩ : ∃ f, fuel = f + 1 := ⟨fuel - 1, by simp at hfuel; omega⟩
    simp only [ServesThenFails] at h
    rw [getTenantsLoop_error c fuel s e h]
    refine ⟨rfl, [s.call], rfl, ?_, ?_, ?_⟩
    · simp [itemsSent_tenants_call, itemsSent]
    · simp [errsSent_tenants_call, errsSent]
    · simp [fetchCount_tenants_call, fetchCount]
  | cons p rest ih =>
    intro s fuel h hval hinv hfuel
    obtain ⟨v, hv⟩ : ∃ v, p.Value = some v :=
      Option.ne_none_iff_exists'.mp (hval p (List.mem_cons_self p rest))
    obtain ⟨fuel, rfl⟩ : ∃ f, fuel = f + 1 := ⟨fuel - 1, by simp at hfuel; omega⟩
    simp only [ServesThenFails] at h
    obtain ⟨hr, hn, hrest⟩ := h
    rw [getTenantsLoop_more c fuel s p v hr hv hn]
    have hnext : ServesThenFails c e ((s.next p).response c) rest := by
      rw [tenants_next_response c s p hinv]
      exact hrest
    obtain ⟨h1, body, h2, h3, h4, h5⟩ := ih (s.next p) fuel hnext
      (fun x hx => hval x (List.mem_cons_of_mem p hx))
      (fun _ => tenants_next_closure s p hinv)
      (by simp at hfuel ⊢; omega)
    obtain ⟨_, _, o3, _, o5, o6⟩ := onceEvents_quiet c s.fetchTenantUpdater
    refine ⟨h1, s.call :: v.map Event.sendResult ++ onceEvents s.fetchTenantUpdater ++ body,
      ?_, ?_, ?_, ?_⟩
    · simp only [h2, List.cons_append, List.append_assoc]
    · simp only [List.cons_append, List.append_assoc, itemsSent_tenants_call,
        itemsSent_append, itemsSent_sends, o5, h3, List.flatMap_cons, Page.items, hv,
        Option.getD_some, List.nil_append]
    · simp only [List.cons_append, List.append_assoc, errsSent_tenants_call,
        errsSent_append, errsSent_sends, o3, h4, List.append_nil]
    · simp only [List.cons_append, List.append_assoc, fetchCount_tenants_call,
        fetchCount_append, fetchCount_sends, o6, h5, List.length_cons]
      omega

end Tenants

/-! ## The loop of `getSubscriptions` -/

section Subscriptions

variable {α : Type}

theorem getSubscriptionsLoop_succ (c : Client α) (fuel : Nat) (s : SubscriptionsState α) :
    getSubscriptionsLoop c (fuel + 1) s =
      match s.response c with
      | .error err => ⟨[s.call, .sendErr err], .returned⟩
      | .ok subscriptionChunk =>
        match subscriptionChunk.Value with
        | none => ⟨[s.call, .nilDereference], .panicked⟩
        | some value =>
          match subscriptionChunk.NextLink with
          | none => ⟨s.call :: value.map Event.sendResult, .returned⟩
          | some _ =>
            ⟨s.call :: value.map Event.sendResult ++ onceEvents s.fetchSubscriptionsUpdater ++
                (getSubscriptionsLoop c fuel (s.next subscriptionChunk)).events,
              (getSubscriptionsLoop c fuel (s.next subscriptionChunk)).status⟩ := by
  obtain ⟨f, o⟩ := s
  cases f <;> cases o <;>
    simp only [getSubscriptionsLoop, SubscriptionsState.call, SubscriptionsState.response, SubscriptionsState.next,
      onceEvents] <;>
    (split <;> try rfl) <;> (split <;> try rfl) <;> (split <;> try rfl) <;> simp

theorem getSubscriptionsLoop_error (c : Client α) (fuel : Nat) (s : SubscriptionsState α) (e : Error)
    (hr : s.response c = .error e) :
    getSubscriptionsLoop c (fuel + 1) s = ⟨[s.call, .sendErr e], .returned⟩ := by
  rw [getSubscriptionsLoop_succ, hr]

theorem getSubscriptionsLoop_nil (c : Client α) (fuel : Nat) (s : SubscriptionsState α) (p : Page α)
    (hr : s.response c = .ok p) (hv : p.Value = none) :
    getSubscriptionsLoop c (fuel + 1) s = ⟨[s.call, .nilDereference], .panicked⟩ := by
  rw [getSubscriptionsLoop_succ, hr]
  simp only [hv]

theorem getSubscriptionsLoop_last (c : Client α) (fuel : Nat) (s : SubscriptionsState α) (p : Page α)
    (v : List α) (hr : s.response c = .ok p) (hv : p.Value = some v)
    (hn : p.NextLink = none) :
    getSubscriptionsLoop c (fuel + 1) s = ⟨s.call :: v.map Event.sendResult, .returned⟩ := by
  rw [getSubscriptionsLoop_succ, hr]
  simp only [hv, hn]

theorem getSubscriptionsLoop_more (c : Client α) (fuel : Nat) (s : SubscriptionsState α) (p : Page α)
    (v : List α) (hr : s.response c = .ok p) (hv : p.Value = some v)
    (hn : p.NextLink ≠ none) :
    getSubscriptionsLoop c (fuel + 1) s =
      ⟨s.call :: v.map Event.sendResult ++ onceEvents s.fetchSubscriptionsUpdater ++
          (getSubscriptionsLoop c fuel (s.next p)).events,
        (getSubscriptionsLoop c fuel (s.next p)).status⟩ := by
  rw [getSubscriptionsLoop_succ, hr]
  cases hl : p.NextLink with
  | none => exact absurd hl hn
  | some l => simp only [hv, hl]

theorem fetchCount_subscriptions_call (s : SubscriptionsState α) (es : List (Event α)) :
    fetchCount (s.call :: es) = fetchCount es + 1 := by
  obtain ⟨f, o⟩ := s
  cases f <;> rfl

theorem itemsSent_subscriptions_call (s : SubscriptionsState α) (es : List (Event α)) :
    itemsSent (s.call :: es) = itemsSent es := by
  obtain ⟨f, o⟩ := s
  cases f <;> rfl

theorem errsSent_subscriptions_call (s : SubscriptionsState α) (es : List (Event α)) :
    errsSent (s.call :: es) = errsSent es := by
  obtain ⟨f, o⟩ := s
  cases f <;> rfl

theorem rebindCount_subscriptions_call (s : SubscriptionsState α) (es : List (Event α)) :
    rebindCount (s.call :: es) = rebindCount es := by
  obtain ⟨f, o⟩ := s
  cases f <;> rfl

theorem errsClosed_subscriptions_call (s : SubscriptionsState α) (es : List (Event α)) :
    errsClosed (s.call :: es) = errsClosed es := by
  obtain ⟨f, o⟩ := s
  cases f <;> rfl

theorem resultsClosed_subscriptions_call (s : SubscriptionsState α) (es : List (Event α)) :
    resultsClosed (s.call :: es) = resultsClosed es := by
  obtain ⟨f, o⟩ := s
  cases f <;> rfl

theorem fetchFailures_subscriptions_call (c : Client α) (s : SubscriptionsState α)
    (es : List (Event α)) :
    fetchFailures c (s.call :: es) =
      (match s.response c with
        | .error e => [e]
        | .ok _ => []) ++ fetchFailures c es := by
  obtain ⟨f, o⟩ := s
  cases f with
  | List =>
    simp only [SubscriptionsState.call, SubscriptionsState.response, fetchFailures]
    cases c.List <;> rfl
  | closure captured =>
    simp only [SubscriptionsState.call, SubscriptionsState.response, fetchFailures]
    cases c.ListNextResults captured <;> rfl

theorem subscriptions_next_done (s : SubscriptionsState α) (p : Page α) :
    (s.next p).fetchSubscriptionsUpdater = true := by
  obtain ⟨f, o⟩ := s
  cases o <;> rfl

theorem getSubscriptionsLoop_shape (c : Client α) :
    ∀ (fuel : Nat) (s : SubscriptionsState α), LoopShape c (getSubscriptionsLoop c fuel s) := by
  intro fuel
  induction fuel with
  | zero =>
    intro s
    exact ⟨rfl, rfl, rfl, [], rfl, Or.inl rfl⟩
  | succ fuel ih =>
    intro s
    cases hr : s.response c with
    | error err =>
      rw [getSubscriptionsLoop_error c fuel s err hr]
      refine ⟨?_, ?_, ?_, [s.call], ?_, Or.inr ⟨err, rfl, rfl⟩⟩
      · simp [errsClosed_subscriptions_call, errsClosed]
      · simp [resultsClosed_subscriptions_call, resultsClosed]
      · simp [errsSent_subscriptions_call, fetchFailures_subscriptions_call, hr, errsSent, fetchFailures]
      · simp [errsSent_subscriptions_call, errsSent]
    | ok chunk =>
      cases hv : chunk.Value with
      | none =>
        rw [getSubscriptionsLoop_nil c fuel s chunk hr hv]
        refine ⟨?_, ?_, ?_, [s.call, .nilDereference], ?_, Or.inl rfl⟩
        · simp [errsClosed_subscriptions_call, errsClosed]
        · simp [resultsClosed_subscriptions_call, resultsClosed]
        · simp [errsSent_subscriptions_call, fetchFailures_subscriptions_call, hr, errsSent, fetchFailures]
        · simp [errsSent_subscriptions_call, errsSent]
      | some value =>
        cases hn : chunk.NextLink with
        | none =>
          rw [getSubscriptionsLoop_last c fuel s chunk value hr hv hn]
          refine ⟨?_, ?_, ?_, s.call :: value.map Event.sendResult, ?_, Or.inl rfl⟩
          · simp [errsClosed_subscriptions_call, errsClosed_sends]
          · simp [resultsClosed_subscriptions_call, resultsClosed_sends]
          · simp [errsSent_subscriptions_call, fetchFailures_subscriptions_call, hr, errsSent_sends,
              fetchFailures_sends]
          · simp [errsSent_subscriptions_call, errsSent_sends]
        | some link =>
          rw [getSubscriptionsLoop_more c fuel s chunk value hr hv (by simp [hn])]
          obtain ⟨h1, h2, h3, body, hb, hshape⟩ := ih (s.next chunk)
          obtain ⟨o1, o2, o3, o4, _, _⟩ := onceEvents_quiet c s.fetchSubscriptionsUpdater
          refine ⟨?_, ?_, ?_,
            s.call :: value.map Event.sendResult ++ onceEvents s.fetchSubscriptionsUpdater ++ body,
            ?_, ?_⟩
          · simp [errsClosed_subscriptions_call, errsClosed_append, errsClosed_sends, o1, h1]
          · simp [resultsClosed_subscriptions_call, resultsClosed_append, resultsClosed_sends, o2, h2]
          · simp [errsSent_subscriptions_call, fetchFailures_subscriptions_call, hr, errsSent_append,
              fetchFailures_append, errsSent_sends, fetchFailures_sends, o3, o4, h3]
          · simp [errsSent_subscriptions_call, errsSent_append, errsSent_sends, o3, hb]
          · rcases hshape with h | ⟨e, hs, he⟩
            · exact Or.inl (by simp [h])
            · exact Or.inr ⟨e, hs, by simp [he]⟩

theorem getSubscriptionsLoop_rebind (c : Client α) :
    ∀ (fuel : Nat) (s : SubscriptionsState α),
      rebindCount (getSubscriptionsLoop c fuel s).events ≤ if s.fetchSubscriptionsUpdater then 0 else 1 := by
  intro fuel
  induction fuel with
  | zero =>
    intro s
    simp [getSubscriptionsLoop, rebindCount]
  | succ fuel ih =>
    intro s
    cases hr : s.response c with
    | error err =>
      rw [getSubscriptionsLoop_error c fuel s err hr]
      simp [rebindCount_subscriptions_call, rebindCount]
    | ok chunk =>
      cases hv : chunk.Value with
      | none =>
        rw [getSubscriptionsLoop_nil c fuel s chunk hr hv]
        simp [rebindCount_subscriptions_call, rebindCount]
      | some value =>
        cases hn : chunk.NextLink with
        | none =>
          rw [getSubscriptionsLoop_last c fuel s chunk value hr hv hn]
          simp [rebindCount_subscriptions_call, rebindCount_sends]
        | some link =>
          rw [getSubscriptionsLoop_more c fuel s chunk value hr hv (by simp [hn])]
          have h := ih (s.next chunk)
          rw [subscriptions_next_done] at h
          simp only [List.cons_append, List.append_assoc, rebindCount_subscriptions_call,
            rebindCount_append, rebindCount_sends, rebindCount_onceEvents]
          simp only [if_true] at h
          omega

end Subscriptions

/-! ## Leaving the goroutine -/

section Deferred

variable {α : Type}

theorem runDeferred_status (r : Run α) : (runDeferred r).status = r.status := by
  obtain ⟨es, st⟩ := r
  cases st <;> rfl

theorem runDeferred_running (r : Run α) (h : r.status = .running) :
    (runDeferred r).events = r.events := by
  obtain ⟨es, st⟩ := r
  cases st <;> first | rfl | exact absurd h (by simp)

theorem runDeferred_events (r : Run α) (h : r.status ≠ .running) :
    (runDeferred r).events = r.events ++ [.closeErrs, .closeResults] := by
  obtain ⟨es, st⟩ := r
  cases st <;> first | rfl | exact absurd rfl h

theorem rebindCount_runDeferred (r : Run α) :
    rebindCount (runDeferred r).events = rebindCount r.events := by
  obtain ⟨es, st⟩ := r
  cases st <;> simp [runDeferred, rebindCount_append, rebindCount]

theorem itemsSent_runDeferred (r : Run α) :
    itemsSent (runDeferred r).events = itemsSent r.events := by
  obtain ⟨es, st⟩ := r
  cases st <;> simp [runDeferred, itemsSent_append, itemsSent]

theorem errsSent_runDeferred (r : Run α) :
    errsSent (runDeferred r).events = errsSent r.events := by
  obtain ⟨es, st⟩ := r
  cases st <;> simp [runDeferred, errsSent_append, errsSent]

theorem fetchCount_runDeferred (r : Run α) :
    fetchCount (runDeferred r).events = fetchCount r.events := by
  obtain ⟨es, st⟩ := r
  cases st <;> simp [runDeferred, fetchCount_append, fetchCount]

theorem fetchFailures_runDeferred (c : Client α) (r : Run α) :
    fetchFailures c (runDeferred r).events = fetchFailures c r.events := by
  obtain ⟨es, st⟩ := r
  cases st <;> simp [runDeferred, fetchFailures_append, fetchFailures]

/-- The terminal-outcome protocol of a producer that has left its loop. -/
theorem runDeferred_protocol (c : Client α) (r : Run α) (hs : LoopShape c r)
    (hfin : (runDeferred r).status ≠ .running) :
    (errsSent (runDeferred r).events).length ≤ 1 ∧
    errsSent (runDeferred r).events = fetchFailures c (runDeferred r).events ∧
    errsClosed (runDeferred r).events = true ∧
    resultsClosed (runDeferred r).events = true ∧
    (fetchFailures c (runDeferred r).events = [] →
      recvErrs (runDeferred r).events = some none) ∧
    (∀ e, e ∈ fetchFailures c (runDeferred r).events →
      recvErrs (runDeferred r).events = some (some e)) := by
  rw [runDeferred_status] at hfin
  obtain ⟨h1, h2, h3, body, hb, hshape⟩ := hs
  have hlen : errsSent r.events = [] ∨ ∃ e, errsSent r.events = [e] := by
    rcases hshape with h | ⟨e, _, he⟩
    · exact Or.inl (by rw [h, hb])
    · exact Or.inr ⟨e, by simp [he, errsSent_append, hb, errsSent]⟩
  have hclosed : errsClosed (runDeferred r).events = true := by
    simp [runDeferred_events r hfin, errsClosed_append, errsClosed]
  refine ⟨?_, ?_, hclosed, ?_, ?_, ?_⟩
  · rw [errsSent_runDeferred]
    rcases hlen with h | ⟨e, h⟩ <;> simp [h]
  · rw [errsSent_runDeferred, fetchFailures_runDeferred, h3]
  · simp [runDeferred_events r hfin, resultsClosed_append, resultsClosed]
  · intro hnone
    rw [fetchFailures_runDeferred, ← h3] at hnone
    simp [recvErrs, errsSent_runDeferred, hnone, hclosed]
  · intro e he
    rw [fetchFailures_runDeferred, ← h3] at he
    rcases hlen with h | ⟨e', h⟩
    · simp [h] at he
    · simp only [h, List.mem_singleton] at he
      subst he
      simp [recvErrs, errsSent_runDeferred, h]

/-- A prefix of the actions in which `results` is closed is all of them. -/
theorem closed_prefix_eq (body tail pre : List (Event α))
    (hbody : resultsClosed body = false)
    (htail : ∀ t, t <+: tail → resultsClosed t = true → t = tail)
    (hpre : pre <+: body ++ tail) (hclosed : resultsClosed pre = true) :
    pre = body ++ tail := by
  rcases List.prefix_or_prefix_of_prefix hpre (List.prefix_append body tail) with h | h
  · obtain ⟨u, rfl⟩ := h
    rw [resultsClosed_append, hclosed] at hbody
    simp at hbody
  · obtain ⟨t, rfl⟩ := h
    have ht : t <+: tail := (List.prefix_append_right_inj body).mp hpre
    rw [resultsClosed_append, hbody, Bool.false_or] at hclosed
    rw [htail t ht hclosed]

/-- The order of the actions of a producer that has left its loop: the item
sends, then the error send if any, then the two closes. -/
theorem runDeferred_order (c : Client α) (r : Run α) (hs : LoopShape c r)
    (hfin : (runDeferred r).status ≠ .running) :
    (∃ body, errsSent body = [] ∧ errsClosed body = false ∧ resultsClosed body = false ∧
      ((runDeferred r).events = body ++ [.closeErrs, .closeResults] ∨
        ∃ e, (runDeferred r).events = body ++ [.sendErr e, .closeErrs, .closeResults])) ∧
    (∀ pre, pre <+: (runDeferred r).events → resultsClosed pre = true →
      recvErrs pre = recvErrs (runDeferred r).events ∧ recvErrs pre ≠ none) ∧
    drain (runDeferred r) ≠ none := by
  have hproto := runDeferred_protocol c r hs hfin
  have hfin0 := hfin
  rw [runDeferred_status] at hfin
  obtain ⟨h1, h2, h3, body, hb, hshape⟩ := hs
  have hsome : recvErrs (runDeferred r).events ≠ none := by
    obtain ⟨_, _, hc, _, _, _⟩ := hproto
    unfold recvErrs
    split
    · simp
    · simp [hc]
  have hpre : ∀ pre, pre <+: (runDeferred r).events → resultsClosed pre = true →
      pre = (runDeferred r).events := by
    intro pre hp hc
    rw [runDeferred_events r hfin] at hp ⊢
    refine closed_prefix_eq r.events _ pre h2 ?_ hp hc
    intro t ht htc
    rcases List.prefix_cons_iff.mp ht with rfl | ⟨u, rfl, hu⟩
    · simp [resultsClosed] at htc
    · rcases List.prefix_cons_iff.mp hu with rfl | ⟨w, rfl, hw⟩
      · simp [resultsClosed] at htc
      · rw [List.prefix_nil.mp hw]
  refine ⟨?_, ?_, ?_⟩
  · rcases hshape with h | ⟨e, _, he⟩
    · refine ⟨body, hb, ?_, ?_, Or.inl ?_⟩
      · rw [← h]; exact h1
      · rw [← h]; exact h2
      · rw [runDeferred_events r hfin, h]
    · have hc1 := h1
      have hc2 := h2
      rw [he, errsClosed_append] at hc1
      rw [he, resultsClosed_append] at hc2
      refine ⟨body, hb, ?_, ?_, Or.inr ⟨e, ?_⟩⟩
      · simpa using (Bool.or_eq_false_iff.mp hc1).1
      · simpa using (Bool.or_eq_false_iff.mp hc2).1
      · rw [runDeferred_events r hfin, he]
        simp
  · intro pre hp hc
    rw [hpre pre hp hc]
    exact ⟨rfl, hsome⟩
  · unfold drain
    cases hst : (runDeferred r).status with
    | running => exact absurd hst hfin0
    | panicked => simp
    | returned =>
      cases hrecv : recvErrs (runDeferred r).events with
      | none => exact absurd hrecv hsome
      | some err => simp

end Deferred

/-! ## The enumerators -/

section Enumerators

/-- Once the closure of `getSubscriptions` holds page `p`, every later request
is `ListNextResults p`: when its answer `q` has a `NextLink`, the loop sends
the items of `q` again and again and never leaves. -/
theorem getSubscriptionsLoop_stuck {α : Type} (c : Client α) (p q : Page α) (v : List α)
    (hr : c.ListNextResults p = .ok q) (hv : q.Value = some v) (hn : q.NextLink ≠ none) :
    ∀ fuel : Nat,
      (getSubscriptionsLoop c fuel ⟨.closure p, true⟩).status = .running ∧
      itemsSent (getSubscriptionsLoop c fuel ⟨.closure p, true⟩).events =
        (List.replicate fuel v).flatten ∧
      errsSent (getSubscriptionsLoop c fuel ⟨.closure p, true⟩).events = [] := by
  intro fuel
  induction fuel with
  | zero => exact ⟨rfl, rfl, rfl⟩
  | succ fuel ih =>
    obtain ⟨h1, h2, h3⟩ := ih
    rw [getSubscriptionsLoop_more c fuel ⟨.closure p, true⟩ q v hr hv hn]
    refine ⟨h1, ?_, ?_⟩
    · simp [SubscriptionsState.call, SubscriptionsState.next, onceEvents, itemsSent,
        itemsSent_append, itemsSent_sends, List.replicate_succ, h2]
    · simp [SubscriptionsState.call, SubscriptionsState.next, onceEvents, errsSent,
        errsSent_append, errsSent_sends, h3]

theorem flatten_replicate_singleton {α : Type} (x : α) (n : Nat) :
    (List.replicate n [x]).flatten = List.replicate n x := by
  induction n with
  | zero => rfl
  | succ n ih => simp [List.replicate_succ, ih]

/-- Whenever the first two pages both have a `NextLink`, `getSubscriptions`
stays in its loop: it sends the items of the first page, then those of the
second page once per iteration, and nothing on `errs`. -/
theorem getSubscriptions_stuck_after_second_page {α : Type} (c : Client α)
    (p q : Page α) (v v2 : List α) (hlist : c.List = .ok p) (hv : p.Value = some v)
    (hn : p.NextLink ≠ none) (hnext : c.ListNextResults p = .ok q)
    (hv2 : q.Value = some v2) (hn2 : q.NextLink ≠ none) (fuel : Nat) :
    (getSubscriptions c fuel).status = .running ∧
    itemsSent (getSubscriptions c (fuel + 1)).events =
      v ++ (List.replicate fuel v2).flatten ∧
    errsSent (getSubscriptions c fuel).events = [] ∧
    recvErrs (getSubscriptions c fuel).events = none := by
  have hstuck := getSubscriptionsLoop_stuck c p q v2 hnext hv2 hn2
  have hloop := fun fuel =>
    getSubscriptionsLoop_more c fuel ⟨.List, false⟩ p v hlist hv hn
  have hrun : ∀ fuel, (getSubscriptionsLoop c fuel ⟨.List, false⟩).status = .running := by
    intro fuel
    cases fuel with
    | zero => rfl
    | succ fuel =>
      rw [hloop]
      exact (hstuck fuel).1
  have hsent : ∀ fuel, errsSent (getSubscriptionsLoop c fuel ⟨.List, false⟩).events = [] := by
    intro fuel
    cases fuel with
    | zero => rfl
    | succ fuel =>
      rw [hloop]
      have h3 := (hstuck fuel).2.2
      simp only [SubscriptionsState.next, Bool.false_eq_true, if_false] at h3 ⊢
      simp [SubscriptionsState.call, onceEvents, errsSent, errsSent_append, errsSent_sends, h3]
  refine ⟨?_, ?_, ?_, ?_⟩
  · rw [getSubscriptions, runDeferred_status]
    exact hrun fuel
  · rw [getSubscriptions, itemsSent_runDeferred, hloop]
    have h2 := (hstuck fuel).2.1
    simp only [SubscriptionsState.next, Bool.false_eq_true, if_false] at h2 ⊢
    simp [SubscriptionsState.call, onceEvents, itemsSent, itemsSent_append, itemsSent_sends, h2]
  · rw [getSubscriptions, errsSent_runDeferred]
    exact hsent fuel
  · rw [getSubscriptions]
    unfold recvErrs
    rw [errsSent_runDeferred, hsent fuel, runDeferred_running _ (hrun fuel),
      (getSubscriptionsLoop_shape c fuel ⟨.List, false⟩).1]
    rfl

/-- With one page or two, `getSubscriptions` does send exactly the items of
the pages and returns with `errs` closed and empty. -/
theorem getSubscriptions_up_to_two_pages {α : Type} (c : Client α) (ps : List (Page α))
    (fuel : Nat) (hserves : Serves c c.List ps) (hitems : ∀ p ∈ ps, p.Value ≠ none)
    (hshort : ps.length ≤ 2) (hfuel : ps.length ≤ fuel) :
    (getSubscriptions c fuel).status = .returned ∧
    itemsSent (getSubscriptions c fuel).events = ps.flatMap Page.items ∧
    fetchCount (getSubscriptions c fuel).events = ps.length ∧
    errsSent (getSubscriptions c fuel).events = [] := by
  match ps, hserves, hitems, hshort, hfuel with
  | [p], hserves, hitems, _, hfuel =>
    obtain ⟨v, hv⟩ : ∃ v, p.Value = some v :=
      Option.ne_none_iff_exists'.mp (hitems p (List.mem_singleton.mpr rfl))
    obtain ⟨fuel, rfl⟩ : ∃ f, fuel = f + 1 := ⟨fuel - 1, by simp at hfuel; omega⟩
    simp only [Serves] at hserves
    have hloop := getSubscriptionsLoop_last c fuel ⟨.List, false⟩ p v hserves.1 hv hserves.2
    refine ⟨?_, ?_, ?_, ?_⟩
    · rw [getSubscriptions, runDeferred_status, hloop]
    · rw [getSubscriptions, itemsSent_runDeferred, hloop]
      simp [SubscriptionsState.call, itemsSent, itemsSent_sends, Page.items, hv]
    · rw [getSubscriptions, fetchCount_runDeferred, hloop]
      simp [SubscriptionsState.call, fetchCount, fetchCount_sends]
    · rw [getSubscriptions, errsSent_runDeferred, hloop]
      simp [SubscriptionsState.call, errsSent, errsSent_sends]
  | [p, q], hserves, hitems, _, hfuel =>
    obtain ⟨v, hv⟩ : ∃ v, p.Value = some v :=
      Option.ne_none_iff_exists'.mp (hitems p (by simp))
    obtain ⟨v2, hv2⟩ : ∃ v, q.Value = some v :=
      Option.ne_none_iff_exists'.mp (hitems q (by simp))
    obtain ⟨fuel, rfl⟩ : ∃ f, fuel = f + 2 := ⟨fuel - 2, by simp at hfuel; omega⟩
    simp only [Serves] at hserves
    obtain ⟨hlist, hn, hnext, hn2⟩ := hserves
    have hloop := getSubscriptionsLoop_more c (fuel + 1) ⟨.List, false⟩ p v hlist hv hn
    have hloop2 := getSubscriptionsLoop_last c fuel ⟨.closure p, true⟩ q v2 hnext hv2 hn2
    have hnextState : (⟨.List, false⟩ : SubscriptionsState α).next p = ⟨.closure p, true⟩ := rfl
    rw [hnextState, hloop2] at hloop
    refine ⟨?_, ?_, ?_, ?_⟩
    · rw [getSubscriptions, runDeferred_status, hloop]
    · rw [getSubscriptions, itemsSent_runDeferred, hloop]
      simp [SubscriptionsState.call, onceEvents, itemsSent, itemsSent_append, itemsSent_sends,
        Page.items, hv, hv2]
    · rw [getSubscriptions, fetchCount_runDeferred, hloop]
      simp [SubscriptionsState.call, onceEvents, fetchCount, fetchCount_append,
        fetchCount_sends]
    · rw [getSubscriptions, errsSent_runDeferred, hloop]
      simp [SubscriptionsState.call, onceEvents, errsSent, errsSent_append, errsSent_sends]

/-- C2: for every page sequence `ps` that the tenant client serves (`List`
answers the first page, `ListNextResults` of each page answers the next, every
page but the last has a `NextLink`, the last has none, every page has its item
list), `getTenants` leaves its loop after `ps.length` iterations, has sent
exactly the items of the pages in page order and within-page order, has made
exactly `ps.length` requests, and closes `errs` without a value. -/
theorem getTenants_yields_every_page {α : Type} (c : Client α) (ps : List (Page α))
    (fuel : Nat) (hserves : Serves c c.List ps) (hitems : ∀ p ∈ ps, p.Value ≠ none)
    (hfuel : ps.length ≤ fuel) :
    (getTenants c fuel).status = .returned ∧
    itemsSent (getTenants c fuel).events = ps.flatMap Page.items ∧
    fetchCount (getTenants c fuel).events = ps.length ∧
    errsSent (getTenants c fuel).events = [] ∧
    recvErrs (getTenants c fuel).events = some none ∧
    drain (getTenants c fuel) = some (.returned (ps.flatMap Page.items, none)) := by
  obtain ⟨h1, h2, h3, h4⟩ := getTenantsLoop_serves c ps ⟨.List, false, Page.zero⟩ fuel
    hserves hitems (fun h => absurd h (by simp)) hfuel
  have hst : (getTenants c fuel).status = .returned := by
    rw [getTenants, runDeferred_status, h1]
  have hitemsSent : itemsSent (getTenants c fuel).events = ps.flatMap Page.items := by
    rw [getTenants, itemsSent_runDeferred, h2]
  have hsent : errsSent (getTenants c fuel).events = [] := by
    rw [getTenants, errsSent_runDeferred, h4]
  have hrecv : recvErrs (getTenants c fuel).events = some none := by
    have hev := runDeferred_events (getTenantsLoop c fuel ⟨.List, false, Page.zero⟩)
      (by rw [h1]; simp)
    have hclosed : errsClosed (getTenants c fuel).events = true := by
      rw [getTenants, hev]
      simp [errsClosed_append, errsClosed]
    simp [recvErrs, hsent, hclosed]
  refine ⟨hst, hitemsSent, ?_, hsent, hrecv, ?_⟩
  · rw [getTenants, fetchCount_runDeferred, h3]
  · simp [drain, hst, hrecv, hitemsSent]

/-- C4: when the tenant client serves the pages `ps` (each with a `NextLink`
and its item list) and answers the next request, the `ps.length + 1`-th, with
the error `e`, `getTenants` sends exactly the items of `ps` in order, then
sends `e` on `errs`, closes both channels and returns, having made
`ps.length + 1` requests and no more. -/
theorem getTenants_stops_at_failed_fetch {α : Type} (c : Client α) (ps : List (Page α))
    (e : Error) (fuel : Nat) (hserves : ServesThenFails c e c.List ps)
    (hitems : ∀ p ∈ ps, p.Value ≠ none) (hfuel : ps.length + 1 ≤ fuel) :
    (getTenants c fuel).status = .returned ∧
    (∃ body, (getTenants c fuel).events = body ++ [.sendErr e, .closeErrs, .closeResults] ∧
      itemsSent body = ps.flatMap Page.items ∧ errsSent body = [] ∧
      fetchCount body = ps.length + 1) ∧
    itemsSent (getTenants c fuel).events = ps.flatMap Page.items ∧
    fetchCount (getTenants c fuel).events = ps.length + 1 ∧
    recvErrs (getTenants c fuel).events = some (some e) := by
  obtain ⟨h1, body, h2, h3, h4, h5⟩ :=
    getTenantsLoop_servesThenFails c e ps ⟨.List, false, Page.zero⟩ fuel
      hserves hitems (fun h => absurd h (by simp)) hfuel
  have hev : (getTenants c fuel).events = body ++ [.sendErr e, .closeErrs, .closeResults] := by
    rw [getTenants, runDeferred_events _ (by rw [h1]; simp), h2]
    simp
  refine ⟨?_, ⟨body, hev, h3, h4, h5⟩, ?_, ?_, ?_⟩
  · rw [getTenants, runDeferred_status, h1]
  · rw [hev, itemsSent_append, h3]
    simp [itemsSent]
  · rw [hev, fetchCount_append, h5]
    simp [fetchCount]
  · simp [recvErrs, hev, errsSent_append, h4, errsSent]

/-- C8: on every run of either enumerator that has left its loop, at most one
value was sent on `errs`, the values sent are exactly the errors the client
answered to the requests made (so a value is sent if and only if a request
failed, and it is that error; nothing is sent when no request fails), both
channels are closed, and when no request failed a receive on `errs` gives
`nil`. -/
theorem enumerators_terminal_outcome {α β : Type} (tenantClient : Client α)
    (client : Client β) (fuel : Nat) :
    ((getTenants tenantClient fuel).status ≠ .running →
      (errsSent (getTenants tenantClient fuel).events).length ≤ 1 ∧
      errsSent (getTenants tenantClient fuel).events =
        fetchFailures tenantClient (getTenants tenantClient fuel).events ∧
      errsClosed (getTenants tenantClient fuel).events = true ∧
      resultsClosed (getTenants tenantClient fuel).events = true ∧
      (fetchFailures tenantClient (getTenants tenantClient fuel).events = [] →
        recvErrs (getTenants tenantClient fuel).events = some none) ∧
      (∀ e, e ∈ fetchFailures tenantClient (getTenants tenantClient fuel).events →
        recvErrs (getTenants tenantClient fuel).events = some (some e))) ∧
    ((getSubscriptions client fuel).status ≠ .running →
      (errsSent (getSubscriptions client fuel).events).length ≤ 1 ∧
      errsSent (getSubscriptions client fuel).events =
        fetchFailures client (getSubscriptions client fuel).events ∧
      errsClosed (getSubscriptions client fuel).events = true ∧
      resultsClosed (getSubscriptions client fuel).events = true ∧
      (fetchFailures client (getSubscriptions client fuel).events = [] →
        recvErrs (getSubscriptions client fuel).events = some none) ∧
      (∀ e, e ∈ fetchFailures client (getSubscriptions client fuel).events →
        recvErrs (getSubscriptions client fuel).events = some (some e))) :=
  ⟨fun h => runDeferred_protocol tenantClient _ (getTenantsLoop_shape tenantClient fuel _) h,
    fun h => runDeferred_protocol client _ (getSubscriptionsLoop_shape client fuel _) h⟩

/-- C9: in either enumerator, whatever the client answers and however many
iterations have run, the fetch slot has been assigned at most once; not at all
when the first page has no `NextLink`; and exactly once, right after the items
of the first page were sent, when the first page has its item list and a
`NextLink`. -/
theorem fetch_slot_rebound_at_most_once {α β : Type} (tenantClient : Client α)
    (client : Client β) (fuel : Nat) :
    (rebindCount (getTenants tenantClient fuel).events ≤ 1 ∧
      (∀ p, tenantClient.List = .ok p → p.NextLink = none →
        rebindCount (getTenants tenantClient fuel).events = 0) ∧
      (∀ p v, tenantClient.List = .ok p → p.Value = some v → p.NextLink ≠ none →
        0 < fuel →
        rebindCount (getTenants tenantClient fuel).events = 1 ∧
        ∃ rest, (getTenants tenantClient fuel).events =
            .callList :: v.map Event.sendResult ++ .rebind :: rest ∧
          rebindCount rest = 0)) ∧
    (rebindCount (getSubscriptions client fuel).events ≤ 1 ∧
      (∀ p, client.List = .ok p → p.NextLink = none →
        rebindCount (getSubscriptions client fuel).events = 0) ∧
      (∀ p v, client.List = .ok p → p.Value = some v → p.NextLink ≠ none →
        0 < fuel →
        rebindCount (getSubscriptions client fuel).events = 1 ∧
        ∃ rest, (getSubscriptions client fuel).events =
            .callList :: v.map Event.sendResult ++ .rebind :: rest ∧
          rebindCount rest = 0)) := by
  refine ⟨⟨?_, ?_, ?_⟩, ⟨?_, ?_, ?_⟩⟩
  · rw [getTenants, rebindCount_runDeferred]
    simpa using getTenantsLoop_rebind tenantClient fuel ⟨.List, false, Page.zero⟩
  · intro p hr hn
    rw [getTenants, rebindCount_runDeferred]
    cases fuel with
    | zero => rfl
    | succ fuel =>
      cases hv : p.Value with
      | none =>
        rw [getTenantsLoop_nil tenantClient fuel ⟨.List, false, Page.zero⟩ p hr hv]
        rfl
      | some v =>
        rw [getTenantsLoop_last tenantClient fuel ⟨.List, false, Page.zero⟩ p v hr hv hn]
        simp [rebindCount_tenants_call, rebindCount_sends]
  · intro p v hr hv hn hfuel
    obtain ⟨fuel, rfl⟩ : ∃ f, fuel = f + 1 := ⟨fuel - 1, by omega⟩
    have hrest := getTenantsLoop_rebind tenantClient fuel
      ((⟨.List, false, Page.zero⟩ : TenantsState α).next p)
    rw [tenants_next_done] at hrest
    simp only [if_true, Nat.le_zero] at hrest
    have hloop := getTenantsLoop_more tenantClient fuel ⟨.List, false, Page.zero⟩ p v hr hv hn
    constructor
    · rw [getTenants, rebindCount_runDeferred, hloop]
      simp [TenantsState.call, onceEvents, rebindCount, rebindCount_append,
        rebindCount_sends, hrest]
    · refine ⟨(runDeferred (getTenantsLoop tenantClient fuel
          ((⟨.List, false, Page.zero⟩ : TenantsState α).next p))).events, ?_, ?_⟩
      · rw [getTenants]
        cases hst : (getTenantsLoop tenantClient fuel
            ((⟨.List, false, Page.zero⟩ : TenantsState α).next p)).status with
        | running =>
          rw [runDeferred_running _ (by rw [hloop]; exact hst), runDeferred_running _ hst,
            hloop]
          simp [TenantsState.call, onceEvents]
        | returned =>
          rw [runDeferred_events _ (by rw [hloop, hst]; simp),
            runDeferred_events _ (by rw [hst]; simp), hloop]
          simp [TenantsState.call, onceEvents]
        | panicked =>
          rw [runDeferred_events _ (by rw [hloop, hst]; simp),
            runDeferred_events _ (by rw [hst]; simp), hloop]
          simp [TenantsState.call, onceEvents]
      · rw [rebindCount_runDeferred, hrest]
  · rw [getSubscriptions, rebindCount_runDeferred]
    simpa using getSubscriptionsLoop_rebind client fuel ⟨.List, false⟩
  · intro p hr hn
    rw [getSubscriptions, rebindCount_runDeferred]
    cases fuel with
    | zero => rfl
    | succ fuel =>
      cases hv : p.Value with
      | none =>
        rw [getSubscriptionsLoop_nil client fuel ⟨.List, false⟩ p hr hv]
        rfl
      | some v =>
        rw [getSubscriptionsLoop_last client fuel ⟨.List, false⟩ p v hr hv hn]
        simp [rebindCount_subscriptions_call, rebindCount_sends]
  · intro p v hr hv hn hfuel
    obtain ⟨fuel, rfl⟩ : ∃ f, fuel = f + 1 := ⟨fuel - 1, by omega⟩
    have hrest := getSubscriptionsLoop_rebind client fuel
      ((⟨.List, false⟩ : SubscriptionsState β).next p)
    rw [subscriptions_next_done] at hrest
    simp only [if_true, Nat.le_zero] at hrest
    have hloop := getSubscriptionsLoop_more client fuel ⟨.List, false⟩ p v hr hv hn
    constructor
    · rw [getSubscriptions, rebindCount_runDeferred, hloop]
      simp [SubscriptionsState.call, onceEvents, rebindCount, rebindCount_append,
        rebindCount_sends, hrest]
    · refine ⟨(runDeferred (getSubscriptionsLoop client fuel
          ((⟨.List, false⟩ : SubscriptionsState β).next p))).events, ?_, ?_⟩
      · rw [getSubscriptions]
        cases hst : (getSubscriptionsLoop client fuel
            ((⟨.List, false⟩ : SubscriptionsState β).next p)).status with
        | running =>
          rw [runDeferred_running _ (by rw [hloop]; exact hst), runDeferred_running _ hst,
            hloop]
          simp [SubscriptionsState.call, onceEvents]
        | returned =>
          rw [runDeferred_events _ (by rw [hloop, hst]; simp),
            runDeferred_events _ (by rw [hst]; simp), hloop]
          simp [SubscriptionsState.call, onceEvents]
        | panicked =>
          rw [runDeferred_events _ (by rw [hloop, hst]; simp),
            runDeferred_events _ (by rw [hst]; simp), hloop]
          simp [SubscriptionsState.call, onceEvents]
      · rw [rebindCount_runDeferred, hrest]

/-- C10: on every exit path of either producer (a return after the last page,
a return on a failed request, a crash on a page without item list) the actions
are, in order: the item sends, then the error send if there is one, then the
close of `errs`, then the close of `results`.  So once the actions performed
include the close of `results`, a receive on `errs` does not wait and gives the
final outcome, and the consumer that drains `results` and then reads `errs`
comes to its end. -/
theorem enumerators_close_order {α β : Type} (tenantClient : Client α)
    (client : Client β) (fuel : Nat) :
    ((getTenants tenantClient fuel).status ≠ .running →
      (∃ body, errsSent body = [] ∧ errsClosed body = false ∧ resultsClosed body = false ∧
        ((getTenants tenantClient fuel).events = body ++ [.closeErrs, .closeResults] ∨
          ∃ e, (getTenants tenantClient fuel).events =
            body ++ [.sendErr e, .closeErrs, .closeResults])) ∧
      (∀ pre, pre <+: (getTenants tenantClient fuel).events → resultsClosed pre = true →
        recvErrs pre = recvErrs (getTenants tenantClient fuel).events ∧
        recvErrs pre ≠ none) ∧
      drain (getTenants tenantClient fuel) ≠ none) ∧
    ((getSubscriptions client fuel).status ≠ .running →
      (∃ body, errsSent body = [] ∧ errsClosed body = false ∧ resultsClosed body = false ∧
        ((getSubscriptions client fuel).events = body ++ [.closeErrs, .closeResults] ∨
          ∃ e, (getSubscriptions client fuel).events =
            body ++ [.sendErr e, .closeErrs, .closeResults])) ∧
      (∀ pre, pre <+: (getSubscriptions client fuel).events → resultsClosed pre = true →
        recvErrs pre = recvErrs (getSubscriptions client fuel).events ∧
        recvErrs pre ≠ none) ∧
      drain (getSubscriptions client fuel) ≠ none) :=
  ⟨fun h => runDeferred_order tenantClient _ (getTenantsLoop_shape tenantClient fuel _) h,
    fun h => runDeferred_order client _ (getSubscriptionsLoop_shape client fuel _) h⟩

/-- C1 (fails on the code): the service serves three subscription pages, each
with one item, the first two with a `NextLink`.  The closure of
`getSubscriptions` keeps the first page, so every request after the first is
`ListNextResults` of the first page: the producer never leaves its loop, sends
the item of the second page once per iteration and never the item of the third.
The loop of `getTenants` on the same pages sends the three items and returns. -/
theorem getSubscriptions_never_reaches_third_page :
    Serves threeSubscriptionPages threeSubscriptionPages.List
      [subscriptionPage1, subscriptionPage2, subscriptionPage3] ∧
    (∀ fuel, (getSubscriptions threeSubscriptionPages fuel).status = .running) ∧
    (∀ fuel, itemsSent (getSubscriptions threeSubscriptionPages (fuel + 1)).events =
      ⟨some "id-1", some "S1"⟩ :: List.replicate fuel ⟨some "id-2", some "S2"⟩) ∧
    (getTenants threeSubscriptionPages 3).status = .returned ∧
    itemsSent (getTenants threeSubscriptionPages 3).events =
      [⟨some "id-1", some "S1"⟩, ⟨some "id-2", some "S2"⟩, ⟨some "id-3", some "S3"⟩] := by
  have hstuck := getSubscriptions_stuck_after_second_page threeSubscriptionPages
    subscriptionPage1 subscriptionPage2 [⟨some "id-1", some "S1"⟩]
    [⟨some "id-2", some "S2"⟩] rfl rfl (by decide) rfl rfl (by decide)
  refine ⟨⟨rfl, by decide, rfl, by decide, rfl, rfl⟩, fun fuel => (hstuck fuel).1, ?_,
    by decide, by decide⟩
  intro fuel
  rw [(hstuck fuel).2.1, flatten_replicate_singleton]
  rfl

/-- C3 (fails on the code): the service serves two subscription pages, each
with a `NextLink`, and answers the request for the page after the second with
an error.  `getSubscriptions` never makes that request: every request after
the first is `ListNextResults` of the first page, so the producer stays in its
loop, sends the item of the second page once per iteration and never sends
the error.  The loop of `getTenants` on the same service delivers the error. -/
theorem getSubscriptions_never_reports_third_fetch_error :
    ServesThenFails failingThirdSubscriptionPage "service unavailable"
      failingThirdSubscriptionPage.List [subscriptionPage1, subscriptionPage2] ∧
    (∀ fuel, (getSubscriptions failingThirdSubscriptionPage fuel).status = .running ∧
      errsSent (getSubscriptions failingThirdSubscriptionPage fuel).events = [] ∧
      recvErrs (getSubscriptions failingThirdSubscriptionPage fuel).events = none) ∧
    (∀ fuel, itemsSent (getSubscriptions failingThirdSubscriptionPage (fuel + 1)).events =
      ⟨some "id-1", some "S1"⟩ :: List.replicate fuel ⟨some "id-2", some "S2"⟩) ∧
    recvErrs (getTenants failingThirdSubscriptionPage 3).events =
      some (some "service unavailable") := by
  have hstuck := getSubscriptions_stuck_after_second_page failingThirdSubscriptionPage
    subscriptionPage1 subscriptionPage2 [⟨some "id-1", some "S1"⟩]
    [⟨some "id-2", some "S2"⟩] rfl rfl (by decide) rfl rfl (by decide)
  refine ⟨⟨rfl, by decide, rfl, by decide, rfl⟩,
    fun fuel => ⟨(hstuck fuel).1, (hstuck fuel).2.2.1, (hstuck fuel).2.2.2⟩, ?_, by decide⟩
  intro fuel
  rw [(hstuck fuel).2.1, flatten_replicate_singleton]
  rfl

end Enumerators

/-! ## Authentication -/

section Authentication

theorem tenantCacheOf_length :
    ∀ (tenants : List TenantIDDescription) (tenantCache : List String),
      tenantCacheOf tenants = some tenantCache → tenantCache.length = tenants.length := by
  intro tenants
  induction tenants with
  | nil =>
    intro tenantCache h
    simp [tenantCacheOf] at h
    simp [← h]
  | cons t rest ih =>
    intro tenantCache h
    unfold tenantCacheOf at h
    split at h
    · rename_i tenantID cache _ hrest
      simp only [Option.some.injEq] at h
      subst h
      simp [ih cache hrest]
    · simp at h

/-- C5 (fails on the code): the only tenant's identifier is not a UUID and
`uuid.FromString` answers an error, yet `authenticate` goes on with the zero
UUID and returns a token and a nil error; and when the OAuth configuration for
the tenant cannot be made, `authenticate` does not return that error but
crashes on the nil configuration. -/
theorem authenticate_drops_tenant_errors :
    drain (getTenants (invalidTenantWorld.tenantsClient (some ⟨"user-token"⟩)) 1) =
      some (.returned ([⟨none, some "not-a-uuid"⟩], none)) ∧
    (invalidTenantWorld.uuidFromString "not-a-uuid").2 = some "uuid: incorrect UUID length" ∧
    (authenticate invalidTenantWorld exampleClientID 1).map Prod.fst =
      some (.returned (some ⟨"user-token"⟩, none)) ∧
    noTenantConfigWorld.NewOAuthConfig noTenantConfigWorld.environment.ActiveDirectoryEndpoint
      "72f988bf-86f1-41af-91ab-2d7cd011db47" = .error "parse: invalid tenant endpoint" ∧
    (authenticate noTenantConfigWorld exampleClientID 1).map Prod.fst = some .panicked := by
  refine ⟨by decide, by decide, by decide, rfl, by decide⟩

/-- C6: when the steps before it succeed and the tenant enumeration ends
without error, having yielded `tenants`, then with zero or with two or more
tenants `authenticate` returns the error "zero or multiple tenants associated
with this account" and has made no call after the enumeration (no
`uuid.FromString`, no tenant-scoped OAuth configuration, no token exchange);
and `authenticate` returns a nil error only if exactly one tenant was
yielded. -/
theorem authenticate_tenant_count_gate (w : World) (clientID : UUID) (fuel : Nat)
    (config : OAuthConfig) (deviceCode : DeviceCode) (message : String) (token : Token)
    (tenants : List TenantIDDescription) (tenantCache : List String)
    (hconfig : w.NewOAuthConfig w.environment.ActiveDirectoryEndpoint "common" = .ok config)
    (hdevice : w.InitiateDeviceAuth config clientID.canonical
      w.environment.ServiceManagementEndpoint = .ok deviceCode)
    (hmessage : deviceCode.Message = some message)
    (hprint : w.Println message = none)
    (htoken : w.WaitForUserCompletion deviceCode = .ok token)
    (hdrain : drain (getTenants (w.tenantsClient (some token)) fuel) =
      some (.returned (tenants, none)))
    (hcache : tenantCacheOf tenants = some tenantCache) :
    (tenants.length ≠ 1 →
      authenticate w clientID fuel =
        some (.returned (some token, some tenantCountError),
          [Effect.NewOAuthConfig w.environment.ActiveDirectoryEndpoint "common",
            Effect.InitiateDeviceAuth clientID.canonical
              w.environment.ServiceManagementEndpoint,
            Effect.stdout (message ++ "\n"),
            Effect.WaitForUserCompletion,
            Effect.getTenants])) ∧
    (∀ returnedToken calls,
      authenticate w clientID fuel = some (.returned (returnedToken, none), calls) →
      tenants.length = 1) := by
  have hlen := tenantCacheOf_length tenants tenantCache hcache
  have hgate : tenants.length ≠ 1 →
      authenticate w clientID fuel =
        some (.returned (some token, some tenantCountError),
          [Effect.NewOAuthConfig w.environment.ActiveDirectoryEndpoint "common",
            Effect.InitiateDeviceAuth clientID.canonical
              w.environment.ServiceManagementEndpoint,
            Effect.stdout (message ++ "\n"),
            Effect.WaitForUserCompletion,
            Effect.getTenants]) := by
    intro hne
    rw [← hlen] at hne
    simp only [authenticate, hconfig, hdevice, hmessage, hprint, htoken, hdrain, hcache]
    match tenantCache, hne with
    | [], _ => rfl
    | [_], h => exact absurd rfl h
    | _ :: _ :: _, _ => rfl
  refine ⟨hgate, ?_⟩
  intro returnedToken calls hret
  by_contra hne
  rw [hgate hne] at hret
  simp at hret

end Authentication

/-! ## Subscription selection -/

section Selection

theorem printSubscriptions_names :
    ∀ (subs : List Subscription) (names : List String) (i : Nat),
      subs.map (fun sub => sub.DisplayName) = names.map some →
      printSubscriptions i subs =
        ((names.enumFrom i).map fun line => Effect.stdout (selectionLine line.1 line.2),
          true) := by
  intro subs
  induction subs with
  | nil =>
    intro names i h
    cases names with
    | nil => rfl
    | cons n names => simp at h
  | cons sub rest ih =>
    intro names i h
    cases names with
    | nil => simp at h
    | cons n names =>
      simp only [List.map_cons, List.cons.injEq] at h
      simp [printSubscriptions, h.1, ih names (i + 1) h.2, List.enumFrom]

theorem listVaults_log (w : World) (token : Option Token) (userSubscription : String) :
    ∃ rest, (main.listVaults w token userSubscription).2 =
        Effect.vaultsList userSubscription "" 30 :: rest ∧
      Effect.stdin ∉ rest := by
  have hprint : ∀ rs : List Resource, Effect.stdin ∉ (printResources rs).1 := by
    intro rs
    induction rs with
    | nil => simp [printResources]
    | cons r rs ih =>
      unfold printResources
      split
      · simp
      · simpa using ih
  unfold main.listVaults
  split
  · exact ⟨_, rfl, by simp⟩
  · split
    · exact ⟨_, rfl, by simp⟩
    · rename_i value _
      exact ⟨_, rfl, by simpa using hprint value⟩

/-- C7: the choice of the subscription in `main`, from the drained list and
the operator's input.  For the empty list the message "No subscriptions found
for this user in this tenant." goes to the error stream and nothing else
happens (no vault listing).  For a single item with a `SubscriptionID` the
next action is the vault listing for that identifier, and the input is never
read.  For more than one item, each with a `DisplayName`, the program prints
the heading, one line per item numbered from 0 in list order with the item's
`DisplayName`, and the prompt, reads the input once, and for an entered index
`i` below the number of items lists the vaults of the `SubscriptionID` of the
`i`-th item. -/
theorem main_selection_resolves (w : World) (token : Option Token) :
    main.selection w token [] =
      (.returned (),
        [Effect.stderr "No subscriptions found for this user in this tenant.\n"]) ∧
    (∀ only userSubscription, only.SubscriptionID = some userSubscription →
      main.selection w token [only] = main.listVaults w token userSubscription ∧
      ∃ rest, (main.selection w token [only]).2 =
          Effect.vaultsList userSubscription "" 30 :: rest ∧
        Effect.stdin ∉ rest) ∧
    (∀ (subscriptionCache : List Subscription) (names : List String) (i : Nat)
        (sub : Subscription) (userSubscription : String),
      1 < subscriptionCache.length →
      subscriptionCache.map (fun s => s.DisplayName) = names.map some →
      w.Scanf = some (i : Int) →
      subscriptionCache[i]? = some sub →
      sub.SubscriptionID = some userSubscription →
      names.length = subscriptionCache.length ∧
      main.selection w token subscriptionCache =
        ((main.listVaults w token userSubscription).1,
          Effect.stdout "Please select a subscription:\n" ::
            (names.enum.map fun line => Effect.stdout (selectionLine line.1 line.2)) ++
          [Effect.stdout "Selection: ", Effect.stdin] ++
          (main.listVaults w token userSubscription).2)) := by
  refine ⟨rfl, ?_, ?_⟩
  · intro only userSubscription hid
    have h : main.selection w token [only] = main.listVaults w token userSubscription := by
      simp [main.selection, hid]
    refine ⟨h, ?_⟩
    rw [h]
    exact listVaults_log w token userSubscription
  · intro subscriptionCache names i sub userSubscription hlen hnames hscan hget hid
    have hcount : names.length = subscriptionCache.length := by
      have := congrArg List.length hnames
      simpa using this.symm
    refine ⟨hcount, ?_⟩
    have hindex : index subscriptionCache (w.Scanf.getD 0) = some sub := by
      simp [index, hscan, hget]
    match subscriptionCache, hlen with
    | a :: b :: rest, _ =>
      simp only [main.selection, printSubscriptions_names (a :: b :: rest) names 0 hnames,
        hindex, hid, List.enum]
      simp

end Selection

/-! ## The theorems at concrete inputs -/

section Witnesses

/-- The statement of C2 at a tenant service with three pages. -/
theorem getTenants_yields_every_page_witness :
    Serves threeTenantPages threeTenantPages.List [tenantPage1, tenantPage2, tenantPage3] ∧
    (getTenants threeTenantPages 3).status = .returned ∧
    itemsSent (getTenants threeTenantPages 3).events =
      [⟨some "/tenants/t1", some "t1"⟩, ⟨some "/tenants/t2", some "t2"⟩,
        ⟨some "/tenants/t3", some "t3"⟩] ∧
    fetchCount (getTenants threeTenantPages 3).events = 3 ∧
    recvErrs (getTenants threeTenantPages 3).events = some none :=
  have hserves : Serves threeTenantPages threeTenantPages.List
      [tenantPage1, tenantPage2, tenantPage3] :=
    ⟨rfl, by decide, rfl, by decide, rfl, rfl⟩
  have h := getTenants_yields_every_page threeTenantPages
    [tenantPage1, tenantPage2, tenantPage3] 3 hserves (by decide) (by decide)
  ⟨hserves, h.1, h.2.1, h.2.2.1, h.2.2.2.2.1⟩

/-- The statement of C4 at a tenant service that fails on the third request. -/
theorem getTenants_stops_at_failed_fetch_witness :
    ServesThenFails failingThirdTenantPage "service unavailable"
      failingThirdTenantPage.List [tenantPage1, tenantPage2] ∧
    itemsSent (getTenants failingThirdTenantPage 3).events =
      [⟨some "/tenants/t1", some "t1"⟩, ⟨some "/tenants/t2", some "t2"⟩] ∧
    fetchCount (getTenants failingThirdTenantPage 3).events = 3 ∧
    recvErrs (getTenants failingThirdTenantPage 3).events =
      some (some "service unavailable") :=
  have hserves : ServesThenFails failingThirdTenantPage "service unavailable"
      failingThirdTenantPage.List [tenantPage1, tenantPage2] :=
    ⟨rfl, by decide, rfl, by decide, rfl⟩
  have h := getTenants_stops_at_failed_fetch failingThirdTenantPage
    [tenantPage1, tenantPage2] "service unavailable" 3 hserves (by decide) (by decide)
  ⟨hserves, h.2.2.1, h.2.2.2.1, h.2.2.2.2⟩

/-- The statement of C8 at a tenant service that fails on the third request and
at a subscription service with two pages. -/
theorem enumerators_terminal_outcome_witness :
    ((getTenants failingThirdTenantPage 3).status ≠ .running ∧
      errsSent (getTenants failingThirdTenantPage 3).events =
        fetchFailures failingThirdTenantPage (getTenants failingThirdTenantPage 3).events ∧
      resultsClosed (getTenants failingThirdTenantPage 3).events = true) ∧
    ((getSubscriptions twoSubscriptionPages 2).status ≠ .running ∧
      fetchFailures twoSubscriptionPages (getSubscriptions twoSubscriptionPages 2).events = [] ∧
      recvErrs (getSubscriptions twoSubscriptionPages 2).events = some none) :=
  have hT : (getTenants failingThirdTenantPage 3).status ≠ .running := by decide
  have hS : (getSubscriptions twoSubscriptionPages 2).status ≠ .running := by decide
  have hF : fetchFailures twoSubscriptionPages
      (getSubscriptions twoSubscriptionPages 2).events = [] := by decide
  have h := enumerators_terminal_outcome failingThirdTenantPage twoSubscriptionPages
  ⟨⟨hT, ((h 3).1 hT).2.1, ((h 3).1 hT).2.2.2.1⟩, ⟨hS, hF, ((h 2).2 hS).2.2.2.2.1 hF⟩⟩

/-- The statement of C9 at services whose first page has a `NextLink` and at a
service whose first page has none. -/
theorem fetch_slot_rebound_at_most_once_witness :
    (threeTenantPages.List = .ok tenantPage1 ∧ tenantPage1.NextLink ≠ none ∧
      rebindCount (getTenants threeTenantPages 3).events = 1) ∧
    ((tenantsInOnePage []).List = .ok ⟨some [], none⟩ ∧
      rebindCount (getTenants (tenantsInOnePage []) 3).events = 0) ∧
    (threeSubscriptionPages.List = .ok subscriptionPage1 ∧
      rebindCount (getSubscriptions threeSubscriptionPages 7).events = 1) :=
  ⟨⟨rfl, by decide,
      ((fetch_slot_rebound_at_most_once threeTenantPages threeSubscriptionPages 3).1.2.2
        tenantPage1 _ rfl rfl (by decide) (by decide)).1⟩,
    ⟨rfl,
      (fetch_slot_rebound_at_most_once (tenantsInOnePage []) threeSubscriptionPages 3).1.2.1
        ⟨some [], none⟩ rfl rfl⟩,
    ⟨rfl,
      ((fetch_slot_rebound_at_most_once threeTenantPages threeSubscriptionPages 7).2.2.2
        subscriptionPage1 _ rfl rfl (by decide) (by decide)).1⟩⟩

/-- The statement of C10 at a tenant service that fails on the third request
and at a subscription service with two pages. -/
theorem enumerators_close_order_witness :
    ((getTenants failingThirdTenantPage 3).status ≠ .running ∧
      ∃ body, errsSent body = [] ∧ errsClosed body = false ∧ resultsClosed body = false ∧
        ((getTenants failingThirdTenantPage 3).events = body ++ [.closeErrs, .closeResults] ∨
          ∃ e, (getTenants failingThirdTenantPage 3).events =
            body ++ [.sendErr e, .closeErrs, .closeResults])) ∧
    ((getSubscriptions twoSubscriptionPages 2).status ≠ .running ∧
      ∀ pre, pre <+: (getSubscriptions twoSubscriptionPages 2).events →
        resultsClosed pre = true →
        recvErrs pre = recvErrs (getSubscriptions twoSubscriptionPages 2).events ∧
        recvErrs pre ≠ none) :=
  have hT : (getTenants failingThirdTenantPage 3).status ≠ .running := by decide
  have hS : (getSubscriptions twoSubscriptionPages 2).status ≠ .running := by decide
  ⟨⟨hT, ((enumerators_close_order failingThirdTenantPage twoSubscriptionPages 3).1 hT).1⟩,
    ⟨hS, ((enumerators_close_order failingThirdTenantPage twoSubscriptionPages 2).2 hS).2.1⟩⟩

/-- The statement of C6 in a world with two tenants. -/
theorem authenticate_tenant_count_gate_witness :
    drain (getTenants (twoTenantsWorld.tenantsClient (some ⟨"user-token"⟩)) 1) =
      some (.returned ([⟨none, some "72f988bf-86f1-41af-91ab-2d7cd011db47"⟩,
        ⟨none, some "0f1ab6a7-5f42-4b0e-a3a5-3b4f2c0c1d11"⟩], none)) ∧
    authenticate twoTenantsWorld exampleClientID 1 =
      some (.returned (some ⟨"user-token"⟩, some tenantCountError),
        [Effect.NewOAuthConfig twoTenantsWorld.environment.ActiveDirectoryEndpoint "common",
          Effect.InitiateDeviceAuth exampleClientID.canonical
            twoTenantsWorld.environment.ServiceManagementEndpoint,
          Effect.stdout ("To sign in, enter the code ABCD." ++ "\n"),
          Effect.WaitForUserCompletion,
          Effect.getTenants]) :=
  have hdrain : drain (getTenants (twoTenantsWorld.tenantsClient (some ⟨"user-token"⟩)) 1) =
      some (.returned ([⟨none, some "72f988bf-86f1-41af-91ab-2d7cd011db47"⟩,
        ⟨none, some "0f1ab6a7-5f42-4b0e-a3a5-3b4f2c0c1d11"⟩], none)) := by decide
  ⟨hdrain,
    (authenticate_tenant_count_gate twoTenantsWorld exampleClientID 1
      ⟨"https://login.microsoftonline.com/" ++ "common"⟩
      ⟨some "To sign in, enter the code ABCD."⟩ "To sign in, enter the code ABCD."
      ⟨"user-token"⟩ _ ["72f988bf-86f1-41af-91ab-2d7cd011db47",
        "0f1ab6a7-5f42-4b0e-a3a5-3b4f2c0c1d11"] rfl rfl rfl rfl rfl hdrain rfl).1
      (by decide)⟩

/-- The statement of C7 for two subscriptions and the entered index 1. -/
theorem main_selection_resolves_witness :
    (exampleWorld (tenantsInOnePage []) twoSubscriptionPages (some 1)).Scanf =
      some ((1 : Nat) : Int) ∧
    main.selection (exampleWorld (tenantsInOnePage []) twoSubscriptionPages (some 1)) none
        [⟨some "id-1", some "S1"⟩, ⟨some "id-3", some "S3"⟩] =
      (.returned (),
        [Effect.stdout "Please select a subscription:\n",
          Effect.stdout "\t 0) S1\n",
          Effect.stdout "\t 1) S3\n",
          Effect.stdout "Selection: ",
          Effect.stdin,
          Effect.vaultsList "id-3" "" 30,
          Effect.stdout "Resources Found:\n",
          Effect.stdout "\t V1\n",
          Effect.stdout "\t V2\n"]) :=
  ⟨rfl,
    ((main_selection_resolves (exampleWorld (tenantsInOnePage []) twoSubscriptionPages
        (some 1)) none).2.2 [⟨some "id-1", some "S1"⟩, ⟨some "id-3", some "S3"⟩]
      ["S1", "S3"] 1 ⟨some "id-3", some "S3"⟩ "id-3" (by decide) rfl rfl rfl rfl).2.trans
      (by decide)⟩

/-- The whole program in the scenario of one tenant, two subscription pages of
one item each, and the entered index 1. -/
theorem main_end_to_end :
    main (exampleWorld (tenantsInOnePage [⟨none, some "72f988bf-86f1-41af-91ab-2d7cd011db47"⟩])
        twoSubscriptionPages (some 1)) 2 =
      some (.returned (),
        [Effect.uuidFromString "04b07795-8ddb-461a-bbee-02f9e1bf7b46",
          Effect.NewOAuthConfig "https://login.microsoftonline.com/" "common",
          Effect.InitiateDeviceAuth "04b07795-8ddb-461a-bbee-02f9e1bf7b46"
            "https://management.core.windows.net/",
          Effect.stdout "To sign in, enter the code ABCD.\n",
          Effect.WaitForUserCompletion,
          Effect.getTenants,
          Effect.uuidFromString "72f988bf-86f1-41af-91ab-2d7cd011db47",
          Effect.NewOAuthConfig "https://login.microsoftonline.com/"
            "72f988bf-86f1-41af-91ab-2d7cd011db47",
          Effect.NewServicePrincipalTokenFromManualToken
            "04b07795-8ddb-461a-bbee-02f9e1bf7b46" "https://management.azure.com/",
          Effect.getSubscriptions,
          Effect.stdout "Please select a subscription:\n",
          Effect.stdout "\t 0) S1\n",
          Effect.stdout "\t 1) S3\n",
          Effect.stdout "Selection: ",
          Effect.stdin,
          Effect.vaultsList "id-3" "" 30,
          Effect.stdout "Resources Found:\n",
          Effect.stdout "\t V1\n",
          Effect.stdout "\t V2\n"]) := by
  decide

end Witnesses

end Issue696
